import Mathlib

/-!
Verification of the progress-tracking / gamification engine and the
evaluation-response parser of the yomitore program.

The Rust sources (`src/stats.rs`, `src/api_client.rs`) are shallowly
embedded: timestamps (`chrono::DateTime<Local>`) become `Int` (seconds of
local time), calendar dates (`NaiveDate`) become `Int` (days, obtained by
floor division of an instant by 86400), machine integers (`usize`, `u8`,
`u32`) become `Nat`, floating point statistics become exact rationals
(no claim below depends on rounding), strings become `List Char`, and the
Rust index-panic in `calculate_median` becomes an `Option`/`Except`
failure.  Each definition mirrors one Rust item of the same name.
-/

namespace Yomitore

/-- Strings are modelled as lists of unicode characters. -/
abbrev Str : Type := List Char

/-- Length of one day in seconds (chrono `Duration::days(1)`). -/
def dayLen : Int := 86400

/-- `DateTime<Local>::date_naive()`: the local calendar day of an instant. -/
def dateOf (t : Int) : Int := Int.fdiv t dayLen

/-- chrono `Duration::num_days()`: whole days, truncated toward zero. -/
def numDays (d : Int) : Int :=
  if 0 ≤ d then ((d.toNat / 86400 : Nat) : Int) else -(((-d).toNat / 86400 : Nat) : Int)

/-- `BADGE_INTERVAL` in `stats.rs`. -/
def BADGE_INTERVAL : Nat := 5

/-- `MAX_CONSECUTIVE_STREAK` in `stats.rs`. -/
def MAX_CONSECUTIVE_STREAK : Nat := 50

/-- `MAX_CUMULATIVE_MILESTONE` in `stats.rs`. -/
def MAX_CUMULATIVE_MILESTONE : Nat := 100

/-- `EvaluationScores` in `stats.rs`. -/
structure EvaluationScores where
  appropriate : Bool
  importance : Nat
  conciseness : Nat
  accuracy : Nat
  improvement1 : Str
  improvement2 : Str
  improvement3 : Str
  overall_passed : Bool
deriving DecidableEq, Repr

/-- `TrainingResult` in `stats.rs`. -/
structure TrainingResult where
  timestamp : Int
  passed : Bool
  evaluation : Option EvaluationScores
deriving DecidableEq, Repr

/-- `BadgeType` in `stats.rs`. -/
inductive BadgeType where
  | consecutiveStreak (n : Nat)
  | cumulativeMilestone (n : Nat)
deriving DecidableEq, Repr

/-- `Badge` in `stats.rs`. -/
structure Badge where
  badge_type : BadgeType
  earned_at : Int
deriving DecidableEq, Repr

/-- `Buddy` in `stats.rs`. -/
structure Buddy where
  level : Nat
  exp : Nat
deriving DecidableEq, Repr

/-- `TrainingStats` in `stats.rs` (the persisted aggregate). -/
structure TrainingStats where
  results : List TrainingResult
  badges : List Badge
  current_streak : Nat
  buddy : Buddy
  last_training_date : Option Int
deriving DecidableEq, Repr

/-- `EvaluationScoreStats` in `stats.rs` (`f32` fields modelled exactly). -/
structure EvaluationScoreStats where
  average : ℚ
  median : ℚ
deriving DecidableEq, Repr

/-- `EvaluationSummary` in `stats.rs`. -/
structure EvaluationSummary where
  count : Nat
  importance : Option EvaluationScoreStats
  conciseness : Option EvaluationScoreStats
  accuracy : Option EvaluationScoreStats
deriving DecidableEq, Repr

/-- `TrainingStats::new` / `Default` (serde defaults). -/
def emptyStats : TrainingStats :=
  { results := [], badges := [], current_streak := 0
    buddy := { level := 1, exp := 0 }, last_training_date := none }

/-- `self.badges.iter().any(|b| b.badge_type == t)`. -/
def hasBadgeType (badges : List Badge) (t : BadgeType) : Bool :=
  badges.any (fun b => decide (b.badge_type = t))

/-- `TrainingStats::add_buddy_exp`. -/
def add_buddy_exp (b : Buddy) : Buddy :=
  let exp := b.exp + 1
  let required_exp := if b.level = 2 then 10 else 5
  if required_exp ≤ exp then { level := b.level + 1, exp := 0 }
  else { level := b.level, exp := exp }

/-- `TrainingStats::check_buddy_penalty` (`now` made explicit). -/
def check_buddy_penalty (now : Int) (s : TrainingStats) : TrainingStats :=
  match s.last_training_date with
  | none => s
  | some last_date =>
    let days_diff := numDays (now - last_date)
    if 3 ≤ days_diff then
      let level := if 1 < s.buddy.level then s.buddy.level - 1 else s.buddy.level
      { s with buddy := { level := level, exp := 0 }, last_training_date := some now }
    else s

/-- `TrainingStats::add_result_with_evaluation` (the single `Local::now()`
of the operation made an explicit `now` argument). -/
def add_result_with_evaluation (now : Int) (passed : Bool)
    (evaluation : Option EvaluationScores) (s : TrainingStats) : TrainingStats :=
  let s := { s with
    results := s.results ++
      [({ timestamp := now, passed := passed, evaluation := evaluation } : TrainingResult)]
    last_training_date := some now }
  if passed then
    let s := { s with buddy := add_buddy_exp s.buddy }
    let s := { s with current_streak := s.current_streak + 1 }
    let s :=
      if s.current_streak % BADGE_INTERVAL = 0 ∧ s.current_streak ≤ MAX_CONSECUTIVE_STREAK then
        if hasBadgeType s.badges (.consecutiveStreak s.current_streak) then s
        else { s with badges := s.badges ++
          [({ badge_type := .consecutiveStreak s.current_streak, earned_at := now } : Badge)] }
      else s
    let total_correct := (s.results.filter (fun r => r.passed)).length
    if total_correct % BADGE_INTERVAL = 0 ∧ total_correct ≤ MAX_CUMULATIVE_MILESTONE then
      if hasBadgeType s.badges (.cumulativeMilestone total_correct) then s
      else { s with badges := s.badges ++
        [({ badge_type := .cumulativeMilestone total_correct, earned_at := now } : Badge)] }
    else s
  else
    { s with current_streak := 0 }

/-- The `for result in self.results.iter().rev()` loop of
`recalculate_streak`: count passed entries until the first failure. -/
def streakLoop : List TrainingResult → Nat
  | [] => 0
  | r :: rest => if r.passed then streakLoop rest + 1 else 0

/-- `TrainingStats::recalculate_streak`. -/
def recalculate_streak (s : TrainingStats) : TrainingStats :=
  { s with current_streak := streakLoop s.results.reverse }

/-- Loop state of `rebuild_badges_from_history`. -/
structure RebuildState where
  max_streak : Nat
  current_streak : Nat
  total_correct : Nat
  badges : List Badge
deriving DecidableEq, Repr

/-- One iteration of the `for result in &self.results` loop of
`rebuild_badges_from_history`. -/
def rebuildStep (st : RebuildState) (r : TrainingResult) : RebuildState :=
  if r.passed then
    let current_streak := st.current_streak + 1
    let total_correct := st.total_correct + 1
    let max_streak := max st.max_streak current_streak
    let badges :=
      if current_streak % BADGE_INTERVAL = 0 ∧ current_streak ≤ MAX_CONSECUTIVE_STREAK then
        if hasBadgeType st.badges (.consecutiveStreak current_streak) then st.badges
        else st.badges ++
          [({ badge_type := .consecutiveStreak current_streak, earned_at := r.timestamp } : Badge)]
      else st.badges
    let badges :=
      if total_correct % BADGE_INTERVAL = 0 ∧ total_correct ≤ MAX_CUMULATIVE_MILESTONE then
        if hasBadgeType badges (.cumulativeMilestone total_correct) then badges
        else badges ++
          [({ badge_type := .cumulativeMilestone total_correct, earned_at := r.timestamp } : Badge)]
      else badges
    { max_streak := max_streak, current_streak := current_streak
      total_correct := total_correct, badges := badges }
  else
    { st with current_streak := 0 }

/-- `TrainingStats::rebuild_badges_from_history`. -/
def rebuild_badges_from_history (s : TrainingStats) : TrainingStats :=
  { s with badges := (s.results.foldl rebuildStep
      { max_streak := 0, current_streak := 0, total_correct := 0, badges := s.badges }).badges }

/-- `WeeklyStats` in `stats.rs`. -/
structure WeeklyStats where
  week_number : Nat
  correct : Nat
  incorrect : Nat
deriving DecidableEq, Repr

/-- Body of the `for result in &self.results` counting loop of
`calculate_weekly_stats`. -/
def weekCountStep (week_start week_end : Int) (c : Nat × Nat) (r : TrainingResult) : Nat × Nat :=
  if week_start ≤ r.timestamp ∧ r.timestamp < week_end then
    if r.passed then (c.1 + 1, c.2) else (c.1, c.2 + 1)
  else c

/-- `TrainingStats::calculate_weekly_stats` (the fixed `now` of
`get_weekly_stats` made an explicit argument). -/
def calculate_weekly_stats (s : TrainingStats) (weeks : Nat) (now : Int) : List WeeklyStats :=
  (List.range weeks).map (fun week =>
    let week_start := now - 7 * dayLen * ((weeks - week - 1 : Nat) : Int)
    let week_end := week_start + 7 * dayLen
    let counts := s.results.foldl (weekCountStep week_start week_end) (0, 0)
    { week_number := week + 1, correct := counts.1, incorrect := counts.2 })

/-- `matches!(b.badge_type, BadgeType::ConsecutiveStreak(_))`. -/
def isConsecutive : BadgeType → Bool
  | .consecutiveStreak _ => true
  | .cumulativeMilestone _ => false

/-- `matches!(b.badge_type, BadgeType::CumulativeMilestone(_))`. -/
def isCumulative : BadgeType → Bool
  | .consecutiveStreak _ => false
  | .cumulativeMilestone _ => true

/-- `TrainingStats::get_badges_by_type`. -/
def get_badges_by_type (s : TrainingStats) : List Badge × List Badge :=
  (s.badges.filter (fun b => isConsecutive b.badge_type),
   s.badges.filter (fun b => isCumulative b.badge_type))

/-- `calculate_median` in `stats.rs`; the two `sorted[...]` index
operations panic when out of bounds, modelled by `none`. -/
def calculate_median (scores : List Nat) : Option ℚ :=
  let sorted := scores.mergeSort (fun a b => decide (a ≤ b))
  let mid := sorted.length / 2
  if sorted.length % 2 = 1 then
    (sorted.get? mid).map (fun a => (a : ℚ))
  else
    match sorted.get? (mid - 1), sorted.get? mid with
    | some a, some b => some (((a : ℚ) + (b : ℚ)) / 2)
    | _, _ => none

/-- `calculate_score_stats` in `stats.rs`; `.error ()` marks the
(unreachable) index panic inside `calculate_median`. -/
def calculate_score_stats (scores : List Nat) : Except Unit (Option EvaluationScoreStats) :=
  if scores.isEmpty then .ok none
  else
    let sum : Nat := scores.foldl (· + ·) 0
    let average : ℚ := (sum : ℚ) / (scores.length : ℚ)
    match calculate_median scores with
    | some median => .ok (some { average := average, median := median })
    | none => .error ()

/-- Body of the score-collecting loop of `get_recent_evaluation_summary`:
skip results dated before the window, push the three scores of each
result that carries an evaluation. -/
def collectStep (start_date : Int) (acc : List Nat × List Nat × List Nat)
    (r : TrainingResult) : List Nat × List Nat × List Nat :=
  if dateOf r.timestamp < start_date then acc
  else
    match r.evaluation with
    | some evaluation =>
      (acc.1 ++ [evaluation.importance], acc.2.1 ++ [evaluation.conciseness],
       acc.2.2 ++ [evaluation.accuracy])
    | none => acc

/-- `TrainingStats::get_recent_evaluation_summary` (the fixed `today`
made an explicit argument). -/
def get_recent_evaluation_summary (s : TrainingStats) (days : Nat) (today : Int) :
    Except Unit EvaluationSummary :=
  let start_date := today - ((days - 1 : Nat) : Int)
  let lists := s.results.foldl (collectStep start_date) ([], [], [])
  let count := lists.1.length
  do
    let importance ← calculate_score_stats lists.1
    let conciseness ← calculate_score_stats lists.2.1
    let accuracy ← calculate_score_stats lists.2.2
    pure { count := count, importance := importance, conciseness := conciseness,
           accuracy := accuracy }

/-- Incremental construction: fold `add_result_with_evaluation` over a
sequence of (now, passed, evaluation) operations, from the empty aggregate. -/
def appendAll (ops : List (Int × Bool × Option EvaluationScores)) : TrainingStats :=
  ops.foldl (fun s op => add_result_with_evaluation op.1 op.2.1 op.2.2 s) emptyStats

/-- The `TrainingResult` created by one append operation. -/
def opResult (op : Int × Bool × Option EvaluationScores) : TrainingResult :=
  { timestamp := op.1, passed := op.2.1, evaluation := op.2.2 }

/-- Start of the 1-based weekly window `w` as the code lays windows out:
window `w` covers `[start, start + 7d)` with `start = now - (weeks - w) * 7d`
(so the newest window, `w = weeks`, starts at `now` itself). -/
def weekStart (weeks w : Nat) (now : Int) : Int :=
  now - 7 * dayLen * ((weeks : Int) - (w : Int))

/-- The rebuild-loop state corresponding to an aggregate: the loop's
`current_streak` mirrors the stored streak, its `total_correct` the number
of passed results, and its `badges` the stored badge list. -/
def stateOf (s : TrainingStats) (m : Nat) : RebuildState :=
  { max_streak := m, current_streak := s.current_streak
    total_correct := (s.results.filter (fun r => r.passed)).length
    badges := s.badges }

/-- An aggregate holding one attempt one second before `now = 0`. -/
def oneOldResult : TrainingStats :=
  { emptyStats with results := [{ timestamp := -1, passed := true, evaluation := none }] }

/-- An aggregate built by ten passed appends at instants 0, 1, ..., 9. -/
def tenPasses : TrainingStats :=
  appendAll ((List.range 10).map (fun i => ((i : Int), true, none)))

/-- An empty-log aggregate carrying one stale persisted badge. -/
def staleStats : TrainingStats :=
  { emptyStats with badges := [{ badge_type := .consecutiveStreak 5, earned_at := 0 }] }

/-- A two-badge aggregate with ascending earn times. -/
def twoBadges : TrainingStats :=
  { emptyStats with badges :=
      [{ badge_type := .consecutiveStreak 5, earned_at := 0 },
       { badge_type := .cumulativeMilestone 5, earned_at := 1 }] }

/-- A `{level 2, exp 3}` buddy last trained at instant 0. -/
def decayStats : TrainingStats :=
  { emptyStats with buddy := { level := 2, exp := 3 }, last_training_date := some 0 }

-- ## The evaluation-response parser (`api_client.rs`)

/-- Rust `char::is_whitespace` (the Unicode `White_Space` property). -/
def isRustWhitespace (c : Char) : Bool :=
  decide (c.toNat = 0x20 ∨ (0x9 ≤ c.toNat ∧ c.toNat ≤ 0xD) ∨ c.toNat = 0x85 ∨
    c.toNat = 0xA0 ∨ c.toNat = 0x1680 ∨ (0x2000 ≤ c.toNat ∧ c.toNat ≤ 0x200A) ∨
    c.toNat = 0x2028 ∨ c.toNat = 0x2029 ∨ c.toNat = 0x202F ∨ c.toNat = 0x205F ∨
    c.toNat = 0x3000)

/-- Rust `str::trim_start`. -/
def trimStart (s : Str) : Str := s.dropWhile isRustWhitespace

/-- Rust `str::trim_end`. -/
def trimEnd (s : Str) : Str := (s.reverse.dropWhile isRustWhitespace).reverse

/-- Rust `str::trim`. -/
def trim (s : Str) : Str := trimEnd (trimStart s)

/-- Rust `str::split_inclusive('\n')`: the pieces of a text, each keeping
its terminating newline (the final piece may lack one); empty text gives
no pieces. -/
def splitInclNl : Str → List Str
  | [] => []
  | c :: rest =>
    match splitInclNl rest with
    | [] => [[c]]
    | p :: ps => if c = '\n' then ['\n'] :: p :: ps else (c :: p) :: ps

/-- One line of Rust `str::lines` from an inclusive piece: strip one
trailing `'\n'`, and if that succeeded also one trailing `'\r'`. -/
def lineOfPiece (p : Str) : Str :=
  if p.getLast? = some '\n' then
    let q := p.dropLast
    if q.getLast? = some '\r' then q.dropLast else q
  else p

/-- Rust `str::lines`. -/
def lines (s : Str) : List Str := (splitInclNl s).map lineOfPiece

/-- The `strip_prefix` chain of `parse_evaluation`: remove one leading
bullet glyph (`-`, `・`, `•`, `−`, `*`) and then `trim_start`. -/
def stripBullet (s : Str) : Str :=
  match s with
  | [] => s
  | c :: rest =>
    if c = '-' then trimStart rest
    else if c = '・' then trimStart rest
    else if c = '•' then trimStart rest
    else if c = '−' then trimStart rest
    else if c = '*' then trimStart rest
    else s

/-- The five bullet glyphs tolerated before a field. -/
def bulletGlyphs : List Char := ['-', '・', '•', '−', '*']

/-- Rust `str::split_once(':')`. -/
def splitOnceColon : Str → Option (Str × Str)
  | [] => none
  | c :: rest =>
    if c = ':' then some ([], rest)
    else
      match splitOnceColon rest with
      | none => none
      | some (k, v) => some (c :: k, v)

/-- The field key 適切な要約か (appropriateness). -/
def keyAppropriate : Str := "適切な要約か".toList

/-- The field key 重要情報の抽出 (importance). -/
def keyImportance : Str := "重要情報の抽出".toList

/-- The field key 簡潔性 (conciseness). -/
def keyConciseness : Str := "簡潔性".toList

/-- The field key 正確性 (accuracy). -/
def keyAccuracy : Str := "正確性".toList

/-- The field key 改善点1 (improvement 1). -/
def keyImprovement1 : Str := "改善点1".toList

/-- The field key 改善点2 (improvement 2). -/
def keyImprovement2 : Str := "改善点2".toList

/-- The field key 改善点3 (improvement 3). -/
def keyImprovement3 : Str := "改善点3".toList

/-- The field key 総合評価 (overall verdict). -/
def keyOverall : Str := "総合評価".toList

/-- The yes marker はい. -/
def yesMarker : Str := "はい".toList

/-- The no marker いいえ. -/
def noMarker : Str := "いいえ".toList

/-- The pass marker 合格. -/
def passMarker : Str := "合格".toList

/-- The fail marker 不合格. -/
def failMarker : Str := "不合格".toList

/-- `OverallEvaluation` in `api_client.rs`. -/
inductive OverallEvaluation where
  | pass
  | fail
deriving DecidableEq, Repr

/-- `EvaluationResult` in `api_client.rs` (the parsed evaluation). -/
structure EvaluationResult where
  appropriate : Bool
  importance : Nat
  conciseness : Nat
  accuracy : Nat
  improvement1 : Str
  improvement2 : Str
  improvement3 : Str
  overall : OverallEvaluation
deriving DecidableEq, Repr

/-- `ParseEvaluationError` in `api_client.rs`. -/
inductive ParseEvaluationError where
  | duplicateField (field : Str)
  | missingField (field : Str)
  | invalidValue (field : Str) (raw : Str)
deriving DecidableEq, Repr

/-- The numeric value of a run of decimal digit characters. -/
def natOfDigits (ds : Str) : Nat :=
  ds.foldl (fun n c => n * 10 + (c.toNat - '0'.toNat)) 0

/-- `parse_score` in `api_client.rs`: leading ASCII-digit run of the
trimmed value, parsed as `u8` (values above 255 fail the parse), accepted
iff in `[1, 5]`. -/
def parse_score (field : Str) (value : Str) : Except ParseEvaluationError Nat :=
  let trimmed := trim value
  let digits := trimmed.takeWhile (fun c => c.isDigit)
  if digits.isEmpty then .error (.invalidValue field value)
  else
    let score := natOfDigits digits
    if 255 < score then .error (.invalidValue field value)
    else if ¬ (1 ≤ score ∧ score ≤ 5) then .error (.invalidValue field value)
    else .ok score

/-- The はい/いいえ dispatch of the 適切な要約か field. -/
def parseYesNo (v : Str) : Option Bool :=
  if yesMarker.isPrefixOf v then some true
  else if noMarker.isPrefixOf v then some false
  else none

/-- The 合格/不合格 dispatch of the 総合評価 field. -/
def parsePassFail (v : Str) : Option OverallEvaluation :=
  if passMarker.isPrefixOf v then some .pass
  else if failMarker.isPrefixOf v then some .fail
  else none

/-- The eight required fields. -/
inductive FieldKey where
  | appropriateKey
  | importanceKey
  | concisenessKey
  | accuracyKey
  | improvement1Key
  | improvement2Key
  | improvement3Key
  | overallKey
deriving DecidableEq, Repr

/-- The `match key` dispatch of `parse_evaluation`: trimmed key against
the eight known keys, anything else skipped. -/
def classifyKey (key : Str) (value : Str) : Option (FieldKey × Str) :=
  if key = keyAppropriate then some (.appropriateKey, value)
  else if key = keyImportance then some (.importanceKey, value)
  else if key = keyConciseness then some (.concisenessKey, value)
  else if key = keyAccuracy then some (.accuracyKey, value)
  else if key = keyImprovement1 then some (.improvement1Key, value)
  else if key = keyImprovement2 then some (.improvement2Key, value)
  else if key = keyImprovement3 then some (.improvement3Key, value)
  else if key = keyOverall then some (.overallKey, value)
  else none

/-- Line classification of `parse_evaluation`: trim the line, skip it when
empty, strip one bullet glyph, split at the first colon (skip when there
is none), and dispatch on the trimmed key with the trimmed value. -/
def classify (line : Str) : Option (FieldKey × Str) :=
  let trimmed := trim line
  if trimmed.isEmpty then none
  else
    let trimmed := stripBullet trimmed
    match splitOnceColon trimmed with
    | none => none
    | some (key, value) => classifyKey (trim key) (trim value)

/-- Accumulator of `parse_evaluation`: the eight `Option` locals. -/
structure PState where
  appropriate : Option Bool
  importance : Option Nat
  conciseness : Option Nat
  accuracy : Option Nat
  improvement1 : Option Str
  improvement2 : Option Str
  improvement3 : Option Str
  overall : Option OverallEvaluation
deriving DecidableEq, Repr

/-- All eight locals start out unset. -/
def initPState : PState := ⟨none, none, none, none, none, none, none, none⟩

/-- The body of one `match key` arm of `parse_evaluation`: duplicate check,
value validation, field update. -/
def applyField (st : PState) (k : FieldKey) (value : Str) :
    Except ParseEvaluationError PState :=
  match k with
  | .appropriateKey =>
    match st.appropriate with
    | some _ => .error (.duplicateField keyAppropriate)
    | none =>
      match parseYesNo value with
      | some b => .ok { st with appropriate := some b }
      | none => .error (.invalidValue keyAppropriate value)
  | .importanceKey =>
    match st.importance with
    | some _ => .error (.duplicateField keyImportance)
    | none => (parse_score keyImportance value).map (fun n => { st with importance := some n })
  | .concisenessKey =>
    match st.conciseness with
    | some _ => .error (.duplicateField keyConciseness)
    | none => (parse_score keyConciseness value).map (fun n => { st with conciseness := some n })
  | .accuracyKey =>
    match st.accuracy with
    | some _ => .error (.duplicateField keyAccuracy)
    | none => (parse_score keyAccuracy value).map (fun n => { st with accuracy := some n })
  | .improvement1Key =>
    match st.improvement1 with
    | some _ => .error (.duplicateField keyImprovement1)
    | none => .ok { st with improvement1 := some value }
  | .improvement2Key =>
    match st.improvement2 with
    | some _ => .error (.duplicateField keyImprovement2)
    | none => .ok { st with improvement2 := some value }
  | .improvement3Key =>
    match st.improvement3 with
    | some _ => .error (.duplicateField keyImprovement3)
    | none => .ok { st with improvement3 := some value }
  | .overallKey =>
    match st.overall with
    | some _ => .error (.duplicateField keyOverall)
    | none =>
      match parsePassFail value with
      | some ov => .ok { st with overall := some ov }
      | none => .error (.invalidValue keyOverall value)

/-- One iteration of the `for line in evaluation.lines()` loop. -/
def parseStep (st : PState) (line : Str) : Except ParseEvaluationError PState :=
  match classify line with
  | none => .ok st
  | some (k, v) => applyField st k v

/-- `parseStep`'s field action on a classified (key, value) pair. -/
def applyPair (st : PState) (kv : FieldKey × Str) : Except ParseEvaluationError PState :=
  applyField st kv.1 kv.2

/-- The `ok_or(MissingField)` chain building the final record. -/
def require (field : Str) : Option α → Except ParseEvaluationError α
  | some v => .ok v
  | none => .error (.missingField field)

/-- The struct-building tail of `parse_evaluation`. -/
def finalizeParse (st : PState) : Except ParseEvaluationError EvaluationResult := do
  let appropriate ← require keyAppropriate st.appropriate
  let importance ← require keyImportance st.importance
  let conciseness ← require keyConciseness st.conciseness
  let accuracy ← require keyAccuracy st.accuracy
  let improvement1 ← require keyImprovement1 st.improvement1
  let improvement2 ← require keyImprovement2 st.improvement2
  let improvement3 ← require keyImprovement3 st.improvement3
  let overall ← require keyOverall st.overall
  pure { appropriate := appropriate, importance := importance, conciseness := conciseness,
         accuracy := accuracy, improvement1 := improvement1, improvement2 := improvement2,
         improvement3 := improvement3, overall := overall }

/-- `parse_evaluation` in `api_client.rs`. -/
def parse_evaluation (evaluation : Str) : Except ParseEvaluationError EvaluationResult := do
  let st ← (lines evaluation).foldlM parseStep initPState
  finalizeParse st

/-- One `- key: value` line of the canonical rendering (newline excluded). -/
def fieldLine (key value : Str) : Str := ['-', ' '] ++ key ++ [':', ' '] ++ value

/-- One `key: value` line without a bullet prefix. -/
def plainLine (key value : Str) : Str := key ++ [':', ' '] ++ value

/-- The はい/いいえ rendering of the appropriate flag. -/
def renderYesNo (b : Bool) : Str := if b then yesMarker else noMarker

/-- The 合格/不合格 rendering of the overall verdict. -/
def renderOverall : OverallEvaluation → Str
  | .pass => passMarker
  | .fail => failMarker

/-- `format_evaluation_display` in `api_client.rs`. -/
def format_evaluation_display (parsed : EvaluationResult) : Str :=
  let appropriate := renderYesNo parsed.appropriate
  let overall := renderOverall parsed.overall
  fieldLine keyAppropriate appropriate ++ '\n' ::
  (fieldLine keyImportance (Nat.toDigits 10 parsed.importance) ++ '\n' ::
  (fieldLine keyConciseness (Nat.toDigits 10 parsed.conciseness) ++ '\n' ::
  (fieldLine keyAccuracy (Nat.toDigits 10 parsed.accuracy) ++ '\n' ::
  (fieldLine keyImprovement1 parsed.improvement1 ++ '\n' ::
  (fieldLine keyImprovement2 parsed.improvement2 ++ '\n' ::
  (fieldLine keyImprovement3 parsed.improvement3 ++ '\n' ::
  (fieldLine keyOverall overall ++ '\n' :: [])))))))

/-- The canonical ordering of the eight fields, without bullet prefixes. -/
def canonicalText (vA vImp vCon vAcc v1 v2 v3 vOv : Str) : Str :=
  plainLine keyAppropriate vA ++ '\n' ::
  (plainLine keyImportance vImp ++ '\n' ::
  (plainLine keyConciseness vCon ++ '\n' ::
  (plainLine keyAccuracy vAcc ++ '\n' ::
  (plainLine keyImprovement1 v1 ++ '\n' ::
  (plainLine keyImprovement2 v2 ++ '\n' ::
  (plainLine keyImprovement3 v3 ++ '\n' ::
  (plainLine keyOverall vOv ++ '\n' :: [])))))))

/-- The field/value assignment a well-formed response must carry. -/
def assignment (vA vImp vCon vAcc v1 v2 v3 vOv : Str) : List (FieldKey × Str) :=
  [(.appropriateKey, vA), (.importanceKey, vImp), (.concisenessKey, vCon),
   (.accuracyKey, vAcc), (.improvement1Key, v1), (.improvement2Key, v2),
   (.improvement3Key, v3), (.overallKey, vOv)]

/-- A valid parsed evaluation whose first improvement contains a newline. -/
def multilineEval : EvaluationResult :=
  { appropriate := true, importance := 4, conciseness := 4, accuracy := 4
    improvement1 := ['a', '\n', 'b'], improvement2 := ['x'], improvement3 := ['y']
    overall := .pass }

/-- A valid parsed evaluation with single-line improvements. -/
def simpleEval : EvaluationResult :=
  { appropriate := true, importance := 4, conciseness := 3, accuracy := 5
    improvement1 := "なし".toList, improvement2 := ['x'], improvement3 := []
    overall := .fail }

deriving instance DecidableEq for Except

/-- A model response with prose, blank lines, all five bullet glyphs and a
bare field, in scrambled field order. -/
def scrambledResponse : Str :=
  ("評価結果:\n\n・総合評価: 合格です\n改善点3: c\n• 正確性: 5/5\n- 改善点1: a\n* 簡潔性: 3\n− 重要情報の抽出: 2\n改善点2: b\n- 適切な要約か: はい\n").toList

-- ## Basic lemmas about the embedded operations

lemma streakLoop_eq_takeWhile (l : List TrainingResult) :
    streakLoop l = (l.takeWhile (fun r => r.passed)).length := by
  induction l with
  | nil => rfl
  | cons r rest ih =>
    by_cases hp : r.passed <;> simp [streakLoop, List.takeWhile_cons, hp, ih]

lemma add_result_results (now : Int) (p : Bool) (e : Option EvaluationScores)
    (s : TrainingStats) :
    (add_result_with_evaluation now p e s).results =
      s.results ++ [{ timestamp := now, passed := p, evaluation := e }] := by
  simp only [add_result_with_evaluation]
  split_ifs <;> rfl

lemma add_result_streak (now : Int) (p : Bool) (e : Option EvaluationScores)
    (s : TrainingStats) :
    (add_result_with_evaluation now p e s).current_streak =
      if p then s.current_streak + 1 else 0 := by
  simp only [add_result_with_evaluation]
  split_ifs <;> rfl

lemma rebuildStep_sim (now : Int) (p : Bool) (e : Option EvaluationScores)
    (s : TrainingStats) (m : Nat) :
    rebuildStep (stateOf s m) { timestamp := now, passed := p, evaluation := e } =
      stateOf (add_result_with_evaluation now p e s)
        (if p then max m (s.current_streak + 1) else m) := by
  cases p
  · simp [rebuildStep, stateOf, add_result_with_evaluation, List.filter_append]
  · simp only [rebuildStep, stateOf, add_result_with_evaluation, List.filter_append,
      List.filter_cons, List.filter_nil, if_true, if_false]
    simp [List.length_append]
    split_ifs <;> simp_all

lemma foldl_add_results (ops : List (Int × Bool × Option EvaluationScores)) :
    ∀ s : TrainingStats,
      (ops.foldl (fun s op => add_result_with_evaluation op.1 op.2.1 op.2.2 s) s).results =
        s.results ++ ops.map opResult := by
  induction ops with
  | nil => intro s; simp
  | cons op rest ih =>
    intro s
    simp only [List.foldl_cons, List.map_cons, ih, add_result_results]
    simp [opResult]

lemma foldl_rebuild_sim (ops : List (Int × Bool × Option EvaluationScores)) :
    ∀ (s : TrainingStats) (m : Nat), ∃ m2,
      List.foldl rebuildStep (stateOf s m) (ops.map opResult) =
        stateOf (ops.foldl (fun s op => add_result_with_evaluation op.1 op.2.1 op.2.2 s) s)
          m2 := by
  induction ops with
  | nil => exact fun s m => ⟨m, rfl⟩
  | cons op rest ih =>
    intro s m
    have hstep : rebuildStep (stateOf s m) (opResult op) =
        stateOf (add_result_with_evaluation op.1 op.2.1 op.2.2 s)
          (if op.2.1 then max m (s.current_streak + 1) else m) :=
      rebuildStep_sim op.1 op.2.1 op.2.2 s m
    simp only [List.map_cons, List.foldl_cons, hstep]
    exact ih _ _

-- ## C2: badgesByType

/-- **C2 counterexample**: after ten passed appends (instants 0..9) the
aggregate holds the consecutive badges 5連 (earned at 4) and 10連 (earned
at 9) in that order, so the first list returned by `get_badges_by_type` is
*not* sorted by `earned_at` descending. -/
theorem badges_by_type_not_descending :
    ((get_badges_by_type tenPasses).1.map Badge.earned_at = [4, 9]) ∧
    ¬ List.Pairwise (fun a b : Badge => b.earned_at ≤ a.earned_at)
        (get_badges_by_type tenPasses).1 := by
  constructor
  · rfl
  · intro h
    rw [show (get_badges_by_type tenPasses).1 =
        [{ badge_type := .consecutiveStreak 5, earned_at := 4 },
         { badge_type := .consecutiveStreak 10, earned_at := 9 }] from rfl] at h
    simp [List.pairwise_cons] at h

/-- **C2 (amended)**: `get_badges_by_type` returns the (consecutive,
cumulative) filters of the stored badge list in stored order; whenever the
stored list is sorted by `earned_at` ascending (as incremental awarding
produces), each returned list is sorted ascending — newest last, not
newest first — and each contains exactly the stored badges of its variant. -/
theorem badges_by_type_partition (s : TrainingStats)
    (h : s.badges.Pairwise (fun a b => a.earned_at ≤ b.earned_at)) :
    (get_badges_by_type s).1 = s.badges.filter (fun b => isConsecutive b.badge_type) ∧
    (get_badges_by_type s).2 = s.badges.filter (fun b => isCumulative b.badge_type) ∧
    (get_badges_by_type s).1.Pairwise (fun a b => a.earned_at ≤ b.earned_at) ∧
    (get_badges_by_type s).2.Pairwise (fun a b => a.earned_at ≤ b.earned_at) ∧
    (∀ b, b ∈ (get_badges_by_type s).1 ↔ b ∈ s.badges ∧ isConsecutive b.badge_type) ∧
    (∀ b, b ∈ (get_badges_by_type s).2 ↔ b ∈ s.badges ∧ isCumulative b.badge_type) := by
  refine ⟨rfl, rfl, ?_, ?_, ?_, ?_⟩
  · exact List.Pairwise.sublist (List.filter_sublist s.badges) h
  · exact List.Pairwise.sublist (List.filter_sublist s.badges) h
  · intro b; simp [get_badges_by_type, List.mem_filter]
  · intro b; simp [get_badges_by_type, List.mem_filter]

/-- **C2 witness**: the amended statement applied to a concrete two-badge
aggregate with ascending earn times. -/
theorem badges_by_type_partition_witness :
    (get_badges_by_type twoBadges).1.Pairwise (fun a b => a.earned_at ≤ b.earned_at) :=
  (badges_by_type_partition twoBadges (by decide)).2.2.1

-- ## C3: rebuildFromHistory

/-- **C3 counterexample**: `rebuild_badges_from_history` does *not* clear
the badge set first — on an empty log with one stale persisted badge it
keeps the stale badge, whereas incremental append over the same (empty)
attempt sequence from the empty aggregate yields no badges. -/
theorem rebuild_keeps_stale_badge :
    (rebuild_badges_from_history staleStats).badges =
      [{ badge_type := .consecutiveStreak 5, earned_at := 0 }] ∧
    (appendAll []).badges = [] := by
  exact ⟨rfl, rfl⟩

/-- **C3 (amended)**: `rebuild_badges_from_history` replays the whole log
in order with local streak/cumulative counters applying the award rule,
but without clearing first; when the badge set is empty at rebuild time
(the claim's replay situation), the rebuilt badge set is identical to the
one produced by incremental append of the same attempt sequence starting
from the empty aggregate. -/
theorem rebuild_replay_equivalence (ops : List (Int × Bool × Option EvaluationScores)) :
    (rebuild_badges_from_history { appendAll ops with badges := [] }).badges =
      (appendAll ops).badges := by
  obtain ⟨m2, hm⟩ := foldl_rebuild_sim ops emptyStats 0
  have hres : (appendAll ops).results = ops.map opResult := by
    simpa [emptyStats] using foldl_add_results ops emptyStats
  show (List.foldl rebuildStep
      ({ max_streak := 0, current_streak := 0, total_correct := 0,
         badges := ([] : List Badge) } : RebuildState)
      ({ appendAll ops with badges := ([] : List Badge) } : TrainingStats).results).badges =
    (appendAll ops).badges
  rw [show ({ appendAll ops with badges := ([] : List Badge) } : TrainingStats).results =
      (appendAll ops).results from rfl, hres]
  have hinit : RebuildState.mk 0 0 0 [] = stateOf emptyStats 0 := rfl
  rw [hinit, hm]
  rfl

-- ## C7: streak counter invariant

/-- **C7**: after every sequence of appends from the empty aggregate, the
stored streak counter equals the number of trailing passed attempts of the
log (counted from the tail until the first failure or the log start), and
`recalculate_streak` leaves the aggregate unchanged. -/
theorem streak_counter_invariant (ops : List (Int × Bool × Option EvaluationScores)) :
    (appendAll ops).current_streak =
      ((appendAll ops).results.reverse.takeWhile (fun r => r.passed)).length ∧
    recalculate_streak (appendAll ops) = appendAll ops := by
  have key : ∀ (l : List (Int × Bool × Option EvaluationScores)) (s : TrainingStats),
      s.current_streak = (s.results.reverse.takeWhile (fun r => r.passed)).length →
      (l.foldl (fun s op => add_result_with_evaluation op.1 op.2.1 op.2.2 s) s).current_streak =
        ((l.foldl (fun s op => add_result_with_evaluation op.1 op.2.1 op.2.2 s)
          s).results.reverse.takeWhile (fun r => r.passed)).length := by
    intro l
    induction l with
    | nil => intro s h; exact h
    | cons op rest ih =>
      intro s h
      refine ih _ ?_
      rw [add_result_results, add_result_streak]
      cases hp : op.2.1 <;>
        simp [List.reverse_append, List.takeWhile_cons, hp, h]
  have h1 : (appendAll ops).current_streak =
      ((appendAll ops).results.reverse.takeWhile (fun r => r.passed)).length :=
    key ops emptyStats rfl
  refine ⟨h1, ?_⟩
  show { appendAll ops with
      current_streak := streakLoop (appendAll ops).results.reverse } = appendAll ops
  rw [streakLoop_eq_takeWhile, ← h1]

-- ## C8: buddy decay

lemma numDays_ge_three_iff (d : Int) : 3 ≤ numDays d ↔ 3 * dayLen ≤ d := by
  unfold numDays dayLen
  split_ifs <;> omega

/-- **C8**: the load-time decay check: when `lastTrainingAt` is set and at
least 3 days old, the buddy drops to `max 1 (level - 1)` with `exp = 0`
and `lastTrainingAt` resets to `now`; when `lastTrainingAt` is unset or
less than 3 days old, the aggregate is unchanged. -/
theorem buddy_decay_check (s : TrainingStats) (now : Int) (hlvl : 1 ≤ s.buddy.level) :
    (∀ t, s.last_training_date = some t →
      (3 * dayLen ≤ now - t →
        check_buddy_penalty now s =
          { s with buddy := { level := max 1 (s.buddy.level - 1), exp := 0 },
                   last_training_date := some now }) ∧
      (now - t < 3 * dayLen → check_buddy_penalty now s = s)) ∧
    (s.last_training_date = none → check_buddy_penalty now s = s) := by
  constructor
  · intro t ht
    constructor
    · intro hd
      have hmax : (if 1 < s.buddy.level then s.buddy.level - 1 else s.buddy.level) =
          max 1 (s.buddy.level - 1) := by split_ifs <;> omega
      simp only [check_buddy_penalty, ht]
      rw [if_pos ((numDays_ge_three_iff _).mpr hd), hmax]
    · intro hd
      simp only [check_buddy_penalty, ht]
      rw [if_neg]
      intro hc
      have := (numDays_ge_three_iff (now - t)).mp hc
      omega
  · intro h
    simp [check_buddy_penalty, h]

/-- **C8 witness**: a `{level 2, exp 3}` buddy last trained exactly 3 days
ago decays to `{level 1, exp 0}` and the timer resets. -/
theorem buddy_decay_check_witness :
    check_buddy_penalty 259200 decayStats =
      { decayStats with buddy := { level := 1, exp := 0 },
                        last_training_date := some 259200 } := by
  have h := ((buddy_decay_check decayStats 259200 (by decide)).1 0 rfl).1 (by decide)
  simpa using h

-- ## C10: median / score statistics safety

lemma calculate_median_isSome {scores : List Nat} (h : scores ≠ []) :
    (calculate_median scores).isSome := by
  unfold calculate_median
  have hlen : (scores.mergeSort (fun a b => decide (a ≤ b))).length = scores.length :=
    List.length_mergeSort scores
  have hpos : 0 < (scores.mergeSort (fun a b => decide (a ≤ b))).length := by
    rw [hlen]; exact List.length_pos.mpr h
  set l := scores.mergeSort (fun a b => decide (a ≤ b)) with hdefl
  have hmid : l.length / 2 < l.length := Nat.div_lt_self hpos (by norm_num)
  by_cases hq : l.length % 2 = 1
  · rw [if_pos hq, List.get?_eq_get hmid]
    simp
  · have hmid1 : l.length / 2 - 1 < l.length := by omega
    rw [if_neg hq, List.get?_eq_get hmid1, List.get?_eq_get hmid]
    simp

lemma calculate_score_stats_some (scores : List Nat) (h : scores ≠ []) :
    ∃ st, calculate_score_stats scores = .ok (some st) := by
  obtain ⟨m, hm⟩ := Option.isSome_iff_exists.mp (calculate_median_isSome h)
  have hne : scores.isEmpty = false := by simp [List.isEmpty_iff, h]
  refine ⟨{ average := ((scores.foldl (· + ·) 0 : Nat) : ℚ) / (scores.length : ℚ),
            median := m }, ?_⟩
  simp only [calculate_score_stats, hne, Bool.false_eq_true, if_false, hm]

/-- **C10**: the score-statistics computation is total: it never reaches
the out-of-bounds branch of `calculate_median` (it guards the empty list
beforehand), returning no stats exactly for the empty score list. -/
theorem score_stats_no_panic (scores : List Nat) :
    ∃ r, calculate_score_stats scores = .ok r ∧ (r.isSome ↔ scores ≠ []) := by
  by_cases h : scores = []
  · subst h
    exact ⟨none, rfl, by simp⟩
  · obtain ⟨st, hst⟩ := calculate_score_stats_some scores h
    exact ⟨some st, hst, by simp [h]⟩

/-- **C10 witness**: the totality statement applied to a concrete list. -/
theorem score_stats_no_panic_witness :
    ∃ r, calculate_score_stats [5, 3] = .ok r ∧ (r.isSome ↔ ([5, 3] : List Nat) ≠ []) :=
  score_stats_no_panic [5, 3]

-- ## C1: weekly stats windows

lemma weekCountStep_foldl (lo hi : Int) (rs : List TrainingResult) :
    ∀ a b : Nat,
      rs.foldl (weekCountStep lo hi) (a, b) =
        (a + (rs.filter (fun r =>
          decide (lo ≤ r.timestamp ∧ r.timestamp < hi) && r.passed)).length,
         b + (rs.filter (fun r =>
          decide (lo ≤ r.timestamp ∧ r.timestamp < hi) && !r.passed)).length) := by
  induction rs with
  | nil => intro a b; simp
  | cons r rest ih =>
    intro a b
    by_cases hin : lo ≤ r.timestamp ∧ r.timestamp < hi
    · by_cases hp : r.passed <;>
        simp [List.foldl_cons, weekCountStep, hin, hp, ih, List.filter_cons] <;> omega
    · simp [List.foldl_cons, weekCountStep, hin, ih, List.filter_cons]

/-- **C1 counterexample**: with `weeks = 1` and `now = 0`, an attempt at
instant `-1` satisfies `now - 7d ≤ timestamp < now` — the claim places it
in the newest window — yet the code counts nothing: its only window is
`[now, now + 7d)`. -/
theorem weekly_newest_window_cex :
    calculate_weekly_stats oneOldResult 1 0 =
      [{ week_number := 1, correct := 0, incorrect := 0 }] ∧
    (0 - 7 * dayLen ≤ (-1 : Int) ∧ (-1 : Int) < 0) := by
  refine ⟨by decide, by decide, by decide⟩

/-- **C1 (amended)**: `calculate_weekly_stats weeks now` returns `weeks`
buckets indexed 1 (oldest) to `weeks` (newest) over half-open 7-day
windows, an attempt counted in window `w` iff
`start(w) ≤ timestamp < start(w) + 7d` with `start(w) = now - (weeks-w)*7d`
— so the windows end at `now + 7d`, not at `now`, and the newest window
(index `weeks`) contains exactly the attempts with
`now ≤ timestamp < now + 7d`. -/
theorem weekly_stats_window_layout (s : TrainingStats) (weeks : Nat) (hw : 1 ≤ weeks)
    (now : Int) :
    (calculate_weekly_stats s weeks now).length = weeks ∧
    (∀ w, 1 ≤ w → w ≤ weeks →
      (calculate_weekly_stats s weeks now).get? (w - 1) =
        some { week_number := w
               correct := (s.results.filter (fun r =>
                 decide (weekStart weeks w now ≤ r.timestamp ∧
                   r.timestamp < weekStart weeks w now + 7 * dayLen) && r.passed)).length
               incorrect := (s.results.filter (fun r =>
                 decide (weekStart weeks w now ≤ r.timestamp ∧
                   r.timestamp < weekStart weeks w now + 7 * dayLen) && !r.passed)).length }) ∧
    weekStart weeks weeks now = now := by
  refine ⟨by simp [calculate_weekly_stats], ?_, by simp [weekStart]⟩
  intro w h1 h2
  have hlt : w - 1 < weeks := by omega
  have hws : now - 7 * dayLen * ((weeks - (w - 1) - 1 : Nat) : Int) = weekStart weeks w now := by
    unfold weekStart dayLen
    have : ((weeks - (w - 1) - 1 : Nat) : Int) = (weeks : Int) - (w : Int) := by omega
    rw [this]
  simp only [calculate_weekly_stats, List.get?_map, List.get?_range hlt, Option.map_some']
  rw [hws, weekCountStep_foldl]
  have hn : w - 1 + 1 = w := by omega
  simp [hn]

/-- **C1 witness**: the amended layout applied at `weeks = 1`. -/
theorem weekly_stats_window_layout_witness :
    (calculate_weekly_stats emptyStats 1 0).length = 1 :=
  (weekly_stats_window_layout emptyStats 1 (by decide) 0).1

-- ## C9: recent evaluation summary

lemma collectStep_foldl (start : Int) (rs : List TrainingResult) :
    ∀ acc : List Nat × List Nat × List Nat,
      rs.foldl (collectStep start) acc =
        (acc.1 ++ rs.filterMap (fun r =>
           if dateOf r.timestamp < start then none else r.evaluation.map (·.importance)),
         acc.2.1 ++ rs.filterMap (fun r =>
           if dateOf r.timestamp < start then none else r.evaluation.map (·.conciseness)),
         acc.2.2 ++ rs.filterMap (fun r =>
           if dateOf r.timestamp < start then none else r.evaluation.map (·.accuracy))) := by
  induction rs with
  | nil => intro acc; simp
  | cons r rest ih =>
    intro acc
    by_cases hd : dateOf r.timestamp < start
    · simp [List.foldl_cons, collectStep, hd, ih, List.filterMap_cons]
    · cases he : r.evaluation <;>
        simp [List.foldl_cons, collectStep, hd, he, ih, List.filterMap_cons]

lemma collect_length (start : Int) (f : EvaluationScores → Nat) (rs : List TrainingResult) :
    (rs.filterMap (fun r =>
      if dateOf r.timestamp < start then none else r.evaluation.map f)).length =
    (rs.filter (fun r => decide (start ≤ dateOf r.timestamp) && r.evaluation.isSome)).length := by
  induction rs with
  | nil => rfl
  | cons r rest ih =>
    by_cases hd : dateOf r.timestamp < start
    · simp [List.filterMap_cons, List.filter_cons, hd, not_le.mpr hd, ih]
    · cases he : r.evaluation <;>
        simp [List.filterMap_cons, List.filter_cons, hd, not_lt.mp hd, he, ih]

/-- **C9**: `get_recent_evaluation_summary` returns a summary whose count
is the number of attempts in the window carrying a `ScoreDetail`
(regardless of pass/fail), and the importance, conciseness and accuracy
statistics are all present exactly when that count is positive — never
present for some scores and absent for others. -/
theorem recent_summary_shape (s : TrainingStats) (days : Nat) (today : Int) :
    ∃ sm : EvaluationSummary,
      get_recent_evaluation_summary s days today = .ok sm ∧
      sm.count = (s.results.filter (fun r =>
        decide (today - ((days - 1 : Nat) : Int) ≤ dateOf r.timestamp) &&
        r.evaluation.isSome)).length ∧
      (sm.importance.isSome ↔ 0 < sm.count) ∧
      (sm.conciseness.isSome ↔ 0 < sm.count) ∧
      (sm.accuracy.isSome ↔ 0 < sm.count) := by
  set start := today - ((days - 1 : Nat) : Int) with hstart
  set N := (s.results.filter (fun r =>
    decide (start ≤ dateOf r.timestamp) && r.evaluation.isSome)).length with hN
  set l1 := s.results.filterMap (fun r =>
    if dateOf r.timestamp < start then none else r.evaluation.map (·.importance)) with hl1
  set l2 := s.results.filterMap (fun r =>
    if dateOf r.timestamp < start then none else r.evaluation.map (·.conciseness)) with hl2
  set l3 := s.results.filterMap (fun r =>
    if dateOf r.timestamp < start then none else r.evaluation.map (·.accuracy)) with hl3
  have hlen1 : l1.length = N := collect_length start _ s.results
  have hlen2 : l2.length = N := collect_length start _ s.results
  have hlen3 : l3.length = N := collect_length start _ s.results
  have hunfold : get_recent_evaluation_summary s days today =
      (do
        let importance ← calculate_score_stats l1
        let conciseness ← calculate_score_stats l2
        let accuracy ← calculate_score_stats l3
        pure { count := l1.length, importance := importance, conciseness := conciseness,
               accuracy := accuracy }) := by
    show (let lists := s.results.foldl (collectStep start) ([], [], [])
          let count := lists.1.length
          do
            let importance ← calculate_score_stats lists.1
            let conciseness ← calculate_score_stats lists.2.1
            let accuracy ← calculate_score_stats lists.2.2
            pure { count := count, importance := importance, conciseness := conciseness,
                   accuracy := accuracy } : Except Unit EvaluationSummary) = _
    rw [collectStep_foldl]
    simp
  by_cases h0 : N = 0
  · have e1 : l1 = [] := List.length_eq_zero.mp (by omega)
    have e2 : l2 = [] := List.length_eq_zero.mp (by omega)
    have e3 : l3 = [] := List.length_eq_zero.mp (by omega)
    refine ⟨{ count := 0, importance := none, conciseness := none, accuracy := none },
      ?_, by simpa using h0.symm, by simp, by simp, by simp⟩
    rw [hunfold, e1, e2, e3]
    rfl
  · have hne1 : l1 ≠ [] := by intro hnil; rw [hnil] at hlen1; simp at hlen1; omega
    have hne2 : l2 ≠ [] := by intro hnil; rw [hnil] at hlen2; simp at hlen2; omega
    have hne3 : l3 ≠ [] := by intro hnil; rw [hnil] at hlen3; simp at hlen3; omega
    obtain ⟨st1, hst1⟩ := calculate_score_stats_some l1 hne1
    obtain ⟨st2, hst2⟩ := calculate_score_stats_some l2 hne2
    obtain ⟨st3, hst3⟩ := calculate_score_stats_some l3 hne3
    refine ⟨{ count := N, importance := some st1, conciseness := some st2,
              accuracy := some st3 }, ?_, rfl, by simp; omega, by simp; omega,
            by simp; omega⟩
    rw [hunfold]
    simp only [hst1, hst2, hst3, bind, Except.bind, pure, Except.pure, hlen1]

-- ## String primitive lemmas (trim, lines, split)

lemma except_bind_ok {ε α β : Type} (a : α) (f : α → Except ε β) :
    (Except.ok a : Except ε α) >>= f = f a := rfl

lemma trimStart_cons_of_not_ws {c : Char} {l : Str} (h : isRustWhitespace c = false) :
    trimStart (c :: l) = c :: l := by
  simp [trimStart, List.dropWhile_cons, h]

lemma trimStart_cons_of_ws {c : Char} {l : Str} (h : isRustWhitespace c = true) :
    trimStart (c :: l) = trimStart l := by
  simp [trimStart, List.dropWhile_cons, h]

lemma trimEnd_append_of_not_ws {c : Char} (l : Str) (h : isRustWhitespace c = false) :
    trimEnd (l ++ [c]) = l ++ [c] := by
  simp [trimEnd, List.reverse_append, List.dropWhile_cons, h]

lemma trimEnd_append_of_ws {c : Char} (l : Str) (h : isRustWhitespace c = true) :
    trimEnd (l ++ [c]) = trimEnd l := by
  simp [trimEnd, List.reverse_append, List.dropWhile_cons, h]

lemma length_trimStart_le (l : Str) : (trimStart l).length ≤ l.length :=
  (List.dropWhile_suffix _).sublist.length_le

lemma length_trimEnd_le (l : Str) : (trimEnd l).length ≤ l.length := by
  have := (List.dropWhile_suffix (l := l.reverse) isRustWhitespace).sublist.length_le
  simpa [trimEnd] using this

lemma trimStart_eq_of_trim_eq {v : Str} (h : trim v = v) : trimStart v = v := by
  have h1 : (trimEnd (trimStart v)).length ≤ (trimStart v).length := length_trimEnd_le _
  have h2 : (trimStart v).length ≤ v.length := length_trimStart_le v
  have h3 : (trimStart v).length = v.length := by
    have := congrArg List.length h
    simp only [trim] at this
    omega
  exact List.IsSuffix.eq_of_length (List.dropWhile_suffix _) h3

lemma trimEnd_eq_of_trim_eq {v : Str} (h : trim v = v) : trimEnd v = v := by
  have hs := trimStart_eq_of_trim_eq h
  calc trimEnd v = trimEnd (trimStart v) := by rw [hs]
    _ = v := h

lemma trim_space_cons {v : Str} (h : trim v = v) : trim (' ' :: v) = v := by
  rw [trim, trimStart_cons_of_ws (by decide)]
  exact h

lemma concat_last_not_ws {v : Str} {c : Char} (h : trimEnd (v ++ [c]) = v ++ [c]) :
    isRustWhitespace c = false := by
  by_contra hc
  have hc2 : isRustWhitespace c = true := by
    cases h2 : isRustWhitespace c
    · exact absurd h2 hc
    · rfl
  rw [trimEnd_append_of_ws v hc2] at h
  have := congrArg List.length h
  have hle := length_trimEnd_le v
  simp at this
  omega

lemma trimEnd_append_of_trimmed {v : Str} (l : Str) (hv : trimEnd v = v) (hne : v ≠ []) :
    trimEnd (l ++ v) = l ++ v := by
  rcases List.eq_nil_or_concat v with rfl | ⟨v2, c, rfl⟩
  · exact absurd rfl hne
  · rw [List.concat_eq_append] at hv ⊢
    have hc : isRustWhitespace c = false := concat_last_not_ws hv
    rw [← List.append_assoc]
    exact trimEnd_append_of_not_ws (l ++ v2) hc

lemma trim_eq_self_of_forall {l : Str} (h : ∀ c ∈ l, isRustWhitespace c = false) :
    trim l = l := by
  have hs : trimStart l = l := by
    cases l with
    | nil => rfl
    | cons c l2 => exact trimStart_cons_of_not_ws (h c (List.mem_cons_self c l2))
  rw [trim, hs]
  rcases List.eq_nil_or_concat l with rfl | ⟨l2, c, rfl⟩
  · rfl
  · rw [List.concat_eq_append]
    exact trimEnd_append_of_not_ws l2 (h c (by simp))

lemma splitInclNl_append {l : Str} (rest : Str) (hl : '\n' ∉ l) :
    splitInclNl (l ++ '\n' :: rest) = (l ++ ['\n']) :: splitInclNl rest := by
  induction l with
  | nil =>
    cases h : splitInclNl rest <;> simp [splitInclNl, h]
  | cons c l2 ih =>
    have hc : c ≠ '\n' := fun hh => hl (hh ▸ List.mem_cons_self c l2)
    have ih2 := ih (fun hm => hl (List.mem_cons_of_mem c hm))
    have ih3 : splitInclNl (List.append l2 ('\n' :: rest)) =
        (l2 ++ ['\n']) :: splitInclNl rest := ih2
    simp only [List.cons_append, splitInclNl, ih3, if_neg hc]

lemma lineOfPiece_line {l : Str} (hr : l.getLast? ≠ some '\r') :
    lineOfPiece (l ++ ['\n']) = l := by
  simp [lineOfPiece, List.getLast?_concat, List.dropLast_concat, hr]

lemma lines_cons_line {l : Str} (rest : Str) (hl : '\n' ∉ l)
    (hr : l.getLast? ≠ some '\r') :
    lines (l ++ '\n' :: rest) = l :: lines rest := by
  simp [lines, splitInclNl_append rest hl, lineOfPiece_line hr]

lemma splitOnceColon_append {key : Str} (rest : Str) (h : ':' ∉ key) :
    splitOnceColon (key ++ ':' :: rest) = some (key, rest) := by
  induction key with
  | nil => simp [splitOnceColon]
  | cons c k2 ih =>
    have hc : c ≠ ':' := fun hh => h (hh ▸ List.mem_cons_self c k2)
    have ih2 := ih (fun hm => h (List.mem_cons_of_mem c hm))
    simp [splitOnceColon, if_neg hc, ih2]

lemma stripBullet_not_glyph {c : Char} (l : Str) (h1 : c ≠ '-') (h2 : c ≠ '・')
    (h3 : c ≠ '•') (h4 : c ≠ '−') (h5 : c ≠ '*') :
    stripBullet (c :: l) = c :: l := by
  simp [stripBullet, h1, h2, h3, h4, h5]

lemma stripBullet_glyph {g : Char} (l : Str) (hg : g ∈ bulletGlyphs) :
    stripBullet (g :: l) = trimStart l := by
  fin_cases hg <;> simp [stripBullet]

-- ## C6: score field validation

/-- **C6**: for a score field, `parse_score` parses the leading digit run
of the trimmed value as an integer and succeeds with that score iff it
lies in `[1, 5]`; a value with no leading digits or an out-of-range
leading digit run yields `InvalidValue` naming the field and carrying the
raw value. -/
theorem parse_score_spec (field value : Str) :
    (∀ n, parse_score field value = .ok n ↔
      ((trim value).takeWhile (fun c => c.isDigit) ≠ [] ∧
        natOfDigits ((trim value).takeWhile (fun c => c.isDigit)) = n ∧ 1 ≤ n ∧ n ≤ 5)) ∧
    (((trim value).takeWhile (fun c => c.isDigit) = [] ∨
        natOfDigits ((trim value).takeWhile (fun c => c.isDigit)) < 1 ∨
        5 < natOfDigits ((trim value).takeWhile (fun c => c.isDigit))) →
      parse_score field value = .error (.invalidValue field value)) := by
  constructor
  · intro n
    unfold parse_score
    by_cases h1 : ((trim value).takeWhile (fun c => c.isDigit)).isEmpty
    · rw [if_pos h1]
      have := List.isEmpty_iff.mp h1
      simp [this]
    · rw [if_neg h1]
      have hne : (trim value).takeWhile (fun c => c.isDigit) ≠ [] := by
        simpa [List.isEmpty_iff] using h1
      by_cases h2 : 255 < natOfDigits ((trim value).takeWhile (fun c => c.isDigit))
      · rw [if_pos h2]
        constructor
        · intro h; exact absurd h (by simp)
        · rintro ⟨-, rfl, h4, h5⟩; omega
      · rw [if_neg h2]
        by_cases h3 : 1 ≤ natOfDigits ((trim value).takeWhile (fun c => c.isDigit)) ∧
            natOfDigits ((trim value).takeWhile (fun c => c.isDigit)) ≤ 5
        · rw [if_neg (by simpa using h3)]
          constructor
          · intro h
            have : natOfDigits ((trim value).takeWhile (fun c => c.isDigit)) = n := by
              simpa using h
            exact ⟨hne, this, by omega, by omega⟩
          · rintro ⟨-, rfl, -, -⟩; rfl
        · rw [if_pos (by simpa using h3)]
          constructor
          · intro h; exact absurd h (by simp)
          · rintro ⟨-, rfl, h4, h5⟩; exact absurd ⟨h4, h5⟩ h3
  · intro hbad
    unfold parse_score
    by_cases h1 : ((trim value).takeWhile (fun c => c.isDigit)).isEmpty
    · rw [if_pos h1]
    · rw [if_neg h1]
      have hne : (trim value).takeWhile (fun c => c.isDigit) ≠ [] := by
        simpa [List.isEmpty_iff] using h1
      by_cases h2 : 255 < natOfDigits ((trim value).takeWhile (fun c => c.isDigit))
      · rw [if_pos h2]
      · rw [if_neg h2]
        rcases hbad with hbad | hbad | hbad
        · exact absurd hbad hne
        · rw [if_pos (by omega)]
        · rw [if_pos (by omega)]

/-- **C6 witness**: the value `"6"` is out of range for 重要情報の抽出 and
yields `InvalidValue` carrying the raw value. -/
theorem parse_score_spec_witness :
    parse_score keyImportance ['6'] = .error (.invalidValue keyImportance ['6']) :=
  (parse_score_spec keyImportance ['6']).2 (by decide)

-- ## Line classification lemmas

lemma glyph_not_ws {g : Char} (hg : g ∈ bulletGlyphs) : isRustWhitespace g = false := by
  fin_cases hg <;> decide

lemma classify_plainLine (k0 : Char) (key2 v : Str)
    (hw : isRustWhitespace k0 = false)
    (hg1 : k0 ≠ '-') (hg2 : k0 ≠ '・') (hg3 : k0 ≠ '•') (hg4 : k0 ≠ '−') (hg5 : k0 ≠ '*')
    (hknws : ∀ c ∈ (k0 :: key2), isRustWhitespace c = false)
    (hkcol : (':' : Char) ∉ (k0 :: key2))
    (hv : trim v = v) :
    classify (plainLine (k0 :: key2) v) = classifyKey (k0 :: key2) v := by
  by_cases hvne : v = []
  · subst hvne
    have htrim : trim (plainLine (k0 :: key2) []) = (k0 :: key2) ++ [':'] := by
      rw [trim]
      rw [show plainLine (k0 :: key2) [] = k0 :: (key2 ++ [':', ' ']) from by
        simp [plainLine]]
      rw [trimStart_cons_of_not_ws hw]
      rw [show k0 :: (key2 ++ [':', ' ']) = ((k0 :: key2) ++ [':']) ++ [' '] from by simp]
      rw [trimEnd_append_of_ws _ (by decide), trimEnd_append_of_not_ws _ (by decide)]
    simp only [classify]
    rw [htrim]
    rw [show (k0 :: key2) ++ [':'] = k0 :: (key2 ++ [':']) from rfl]
    rw [if_neg (by simp)]
    rw [stripBullet_not_glyph _ hg1 hg2 hg3 hg4 hg5]
    rw [show k0 :: (key2 ++ [':']) = (k0 :: key2) ++ ':' :: [] from by simp]
    rw [splitOnceColon_append _ hkcol]
    show classifyKey (trim (k0 :: key2)) (trim []) = classifyKey (k0 :: key2) []
    rw [trim_eq_self_of_forall hknws]
    rfl
  · have htrim : trim (plainLine (k0 :: key2) v) = plainLine (k0 :: key2) v := by
      rw [trim]
      rw [show plainLine (k0 :: key2) v = k0 :: ((key2 ++ [':', ' ']) ++ v) from by
        simp [plainLine]]
      rw [trimStart_cons_of_not_ws hw]
      rw [show k0 :: ((key2 ++ [':', ' ']) ++ v) = ((k0 :: key2) ++ [':', ' ']) ++ v from by
        simp]
      rw [trimEnd_append_of_trimmed _ (trimEnd_eq_of_trim_eq hv) hvne]
    simp only [classify]
    rw [htrim]
    rw [show plainLine (k0 :: key2) v = k0 :: ((key2 ++ [':', ' ']) ++ v) from by
      simp [plainLine]]
    rw [if_neg (by simp)]
    rw [stripBullet_not_glyph _ hg1 hg2 hg3 hg4 hg5]

    rw [show k0 :: ((key2 ++ [':', ' ']) ++ v) = (k0 :: key2) ++ ':' :: (' ' :: v) from by
      simp]
    rw [splitOnceColon_append _ hkcol]
    show classifyKey (trim (k0 :: key2)) (trim (' ' :: v)) = classifyKey (k0 :: key2) v
    rw [trim_eq_self_of_forall hknws, trim_space_cons hv]

lemma classify_glyphLine (g : Char) (hg : g ∈ bulletGlyphs) (k0 : Char) (key2 v : Str)
    (hw : isRustWhitespace k0 = false)
    (hknws : ∀ c ∈ (k0 :: key2), isRustWhitespace c = false)
    (hkcol : (':' : Char) ∉ (k0 :: key2))
    (hv : trim v = v) :
    classify (g :: ' ' :: plainLine (k0 :: key2) v) = classifyKey (k0 :: key2) v := by
  have hgw : isRustWhitespace g = false := glyph_not_ws hg
  by_cases hvne : v = []
  · subst hvne
    have htrim : trim (g :: ' ' :: plainLine (k0 :: key2) []) =
        g :: ' ' :: ((k0 :: key2) ++ [':']) := by
      rw [trim]
      rw [show g :: ' ' :: plainLine (k0 :: key2) [] =
          g :: (' ' :: (k0 :: (key2 ++ [':', ' ']))) from by simp [plainLine]]
      rw [trimStart_cons_of_not_ws hgw]
      rw [show g :: (' ' :: (k0 :: (key2 ++ [':', ' ']))) =
          ((g :: ' ' :: (k0 :: key2)) ++ [':']) ++ [' '] from by simp]
      rw [trimEnd_append_of_ws _ (by decide), trimEnd_append_of_not_ws _ (by decide)]
      simp
    simp only [classify]
    rw [htrim]
    rw [if_neg (by simp)]
    rw [stripBullet_glyph _ hg]
    rw [trimStart_cons_of_ws (by decide)]
    rw [show (k0 :: key2) ++ [':'] = k0 :: (key2 ++ [':']) from rfl]
    rw [trimStart_cons_of_not_ws hw]
    rw [show k0 :: (key2 ++ [':']) = (k0 :: key2) ++ ':' :: [] from by simp]
    rw [splitOnceColon_append _ hkcol]
    show classifyKey (trim (k0 :: key2)) (trim []) = classifyKey (k0 :: key2) []
    rw [trim_eq_self_of_forall hknws]
    rfl
  · have htrim : trim (g :: ' ' :: plainLine (k0 :: key2) v) =
        g :: ' ' :: plainLine (k0 :: key2) v := by
      rw [trim]
      rw [show g :: ' ' :: plainLine (k0 :: key2) v =
          g :: (' ' :: (k0 :: ((key2 ++ [':', ' ']) ++ v))) from by simp [plainLine]]
      rw [trimStart_cons_of_not_ws hgw]
      rw [show g :: (' ' :: (k0 :: ((key2 ++ [':', ' ']) ++ v))) =
          (g :: ' ' :: ((k0 :: key2) ++ [':', ' '])) ++ v from by simp]
      rw [trimEnd_append_of_trimmed _ (trimEnd_eq_of_trim_eq hv) hvne]
    simp only [classify]
    rw [htrim]
    rw [show g :: ' ' :: plainLine (k0 :: key2) v =
        g :: (' ' :: (k0 :: ((key2 ++ [':', ' ']) ++ v))) from by simp [plainLine]]
    rw [if_neg (by simp)]
    rw [stripBullet_glyph _ hg]
    rw [trimStart_cons_of_ws (by decide)]
    rw [trimStart_cons_of_not_ws hw]
    rw [show k0 :: ((key2 ++ [':', ' ']) ++ v) = (k0 :: key2) ++ ':' :: (' ' :: v) from by
      simp]
    rw [splitOnceColon_append _ hkcol]
    show classifyKey (trim (k0 :: key2)) (trim (' ' :: v)) = classifyKey (k0 :: key2) v
    rw [trim_eq_self_of_forall hknws, trim_space_cons hv]

-- ## Fold machinery for `parse_evaluation`

lemma foldlM_parseStep_eq (ls : List Str) :
    ∀ st : PState, ls.foldlM parseStep st =
      (ls.filterMap classify).foldlM applyPair st := by
  induction ls with
  | nil => intro st; rfl
  | cons l ls ih =>
    intro st
    cases hc : classify l with
    | none =>
      have hstep : parseStep st l = .ok st := by simp [parseStep, hc]
      rw [List.foldlM_cons, hstep, except_bind_ok]
      simp only [List.filterMap_cons, hc]
      exact ih st
    | some kv =>
      have hstep : parseStep st l = applyPair st kv := by
        cases kv; simp [parseStep, hc, applyPair]
      rw [List.foldlM_cons, hstep]
      simp only [List.filterMap_cons, hc]
      rw [List.foldlM_cons]
      cases ha : applyPair st kv with
      | error e => rfl
      | ok st2 => rw [except_bind_ok, except_bind_ok]; exact ih st2

lemma foldlM_applyPair_of_perm
    (vA vImp vCon vAcc v1 v2 v3 vOv : Str) (bA : Bool) (nImp nCon nAcc : Nat)
    (ovR : OverallEvaluation)
    (hA : parseYesNo vA = some bA)
    (hImp : parse_score keyImportance vImp = .ok nImp)
    (hCon : parse_score keyConciseness vCon = .ok nCon)
    (hAcc : parse_score keyAccuracy vAcc = .ok nAcc)
    (hOv : parsePassFail vOv = some ovR) :
    ∀ (fl : List (FieldKey × Str)) (st : PState),
      (∀ kv ∈ fl, kv ∈ assignment vA vImp vCon vAcc v1 v2 v3 vOv) →
      (fl.map Prod.fst).Nodup →
      st.appropriate = (if FieldKey.appropriateKey ∈ fl.map Prod.fst then none else some bA) →
      st.importance = (if FieldKey.importanceKey ∈ fl.map Prod.fst then none else some nImp) →
      st.conciseness = (if FieldKey.concisenessKey ∈ fl.map Prod.fst then none else some nCon) →
      st.accuracy = (if FieldKey.accuracyKey ∈ fl.map Prod.fst then none else some nAcc) →
      st.improvement1 = (if FieldKey.improvement1Key ∈ fl.map Prod.fst then none else some v1) →
      st.improvement2 = (if FieldKey.improvement2Key ∈ fl.map Prod.fst then none else some v2) →
      st.improvement3 = (if FieldKey.improvement3Key ∈ fl.map Prod.fst then none else some v3) →
      st.overall = (if FieldKey.overallKey ∈ fl.map Prod.fst then none else some ovR) →
      fl.foldlM applyPair st =
        .ok ⟨some bA, some nImp, some nCon, some nAcc, some v1, some v2, some v3, some ovR⟩ := by
  intro fl
  induction fl with
  | nil =>
    intro st hmem hnodup h1 h2 h3 h4 h5 h6 h7 h8
    simp only [List.map_nil, List.not_mem_nil, if_neg, if_false] at h1 h2 h3 h4 h5 h6 h7 h8
    rw [List.foldlM_nil,
      show st = (⟨st.appropriate, st.importance, st.conciseness, st.accuracy,
        st.improvement1, st.improvement2, st.improvement3, st.overall⟩ : PState) from rfl,
      h1, h2, h3, h4, h5, h6, h7, h8]
    rfl
  | cons kv fl ih =>
    intro st hmem hnodup h1 h2 h3 h4 h5 h6 h7 h8
    have hkv := hmem kv (List.mem_cons_self kv fl)
    rcases (by simpa [assignment] using hkv :
        kv = (FieldKey.appropriateKey, vA) ∨ kv = (FieldKey.importanceKey, vImp) ∨
        kv = (FieldKey.concisenessKey, vCon) ∨ kv = (FieldKey.accuracyKey, vAcc) ∨
        kv = (FieldKey.improvement1Key, v1) ∨ kv = (FieldKey.improvement2Key, v2) ∨
        kv = (FieldKey.improvement3Key, v3) ∨ kv = (FieldKey.overallKey, vOv))
      with rfl | rfl | rfl | rfl | rfl | rfl | rfl | rfl
    · have hset : st.appropriate = none := by rw [h1]; simp
      have happ : applyPair st (FieldKey.appropriateKey, vA) =
          .ok { st with appropriate := some bA } := by
        simp [applyPair, applyField, hset, hA]
      have hnotin : FieldKey.appropriateKey ∉ fl.map Prod.fst := (List.nodup_cons.mp hnodup).1
      rw [List.foldlM_cons, happ, except_bind_ok]
      refine ih _ (fun kv hk => hmem kv (List.mem_cons_of_mem _ hk))
        (List.nodup_cons.mp hnodup).2 ?_ ?_ ?_ ?_ ?_ ?_ ?_ ?_
      · rw [if_neg hnotin]
      · show st.importance = if FieldKey.importanceKey ∈ List.map Prod.fst fl then none
            else some nImp
        rw [h2]
        by_cases hJ : FieldKey.importanceKey ∈ List.map Prod.fst fl
        · rw [if_pos (by simp [List.map_cons, List.mem_cons, hJ]), if_pos hJ]
        · rw [if_neg (by simp [List.map_cons, List.mem_cons, hJ]), if_neg hJ]
      · show st.conciseness = if FieldKey.concisenessKey ∈ List.map Prod.fst fl then none
            else some nCon
        rw [h3]
        by_cases hJ : FieldKey.concisenessKey ∈ List.map Prod.fst fl
        · rw [if_pos (by simp [List.map_cons, List.mem_cons, hJ]), if_pos hJ]
        · rw [if_neg (by simp [List.map_cons, List.mem_cons, hJ]), if_neg hJ]
      · show st.accuracy = if FieldKey.accuracyKey ∈ List.map Prod.fst fl then none
            else some nAcc
        rw [h4]
        by_cases hJ : FieldKey.accuracyKey ∈ List.map Prod.fst fl
        · rw [if_pos (by simp [List.map_cons, List.mem_cons, hJ]), if_pos hJ]
        · rw [if_neg (by simp [List.map_cons, List.mem_cons, hJ]), if_neg hJ]
      · show st.improvement1 = if FieldKey.improvement1Key ∈ List.map Prod.fst fl then none
            else some v1
        rw [h5]
        by_cases hJ : FieldKey.improvement1Key ∈ List.map Prod.fst fl
        · rw [if_pos (by simp [List.map_cons, List.mem_cons, hJ]), if_pos hJ]
        · rw [if_neg (by simp [List.map_cons, List.mem_cons, hJ]), if_neg hJ]
      · show st.improvement2 = if FieldKey.improvement2Key ∈ List.map Prod.fst fl then none
            else some v2
        rw [h6]
        by_cases hJ : FieldKey.improvement2Key ∈ List.map Prod.fst fl
        · rw [if_pos (by simp [List.map_cons, List.mem_cons, hJ]), if_pos hJ]
        · rw [if_neg (by simp [List.map_cons, List.mem_cons, hJ]), if_neg hJ]
      · show st.improvement3 = if FieldKey.improvement3Key ∈ List.map Prod.fst fl then none
            else some v3
        rw [h7]
        by_cases hJ : FieldKey.improvement3Key ∈ List.map Prod.fst fl
        · rw [if_pos (by simp [List.map_cons, List.mem_cons, hJ]), if_pos hJ]
        · rw [if_neg (by simp [List.map_cons, List.mem_cons, hJ]), if_neg hJ]
      · show st.overall = if FieldKey.overallKey ∈ List.map Prod.fst fl then none
            else some ovR
        rw [h8]
        by_cases hJ : FieldKey.overallKey ∈ List.map Prod.fst fl
        · rw [if_pos (by simp [List.map_cons, List.mem_cons, hJ]), if_pos hJ]
        · rw [if_neg (by simp [List.map_cons, List.mem_cons, hJ]), if_neg hJ]
    · have hset : st.importance = none := by rw [h2]; simp
      have happ : applyPair st (FieldKey.importanceKey, vImp) =
          .ok { st with importance := some nImp } := by
        simp [applyPair, applyField, hset, hImp, Except.map]
      have hnotin : FieldKey.importanceKey ∉ fl.map Prod.fst := (List.nodup_cons.mp hnodup).1
      rw [List.foldlM_cons, happ, except_bind_ok]
      refine ih _ (fun kv hk => hmem kv (List.mem_cons_of_mem _ hk))
        (List.nodup_cons.mp hnodup).2 ?_ ?_ ?_ ?_ ?_ ?_ ?_ ?_
      · show st.appropriate = if FieldKey.appropriateKey ∈ List.map Prod.fst fl then none
            else some bA
        rw [h1]
        by_cases hJ : FieldKey.appropriateKey ∈ List.map Prod.fst fl
        · rw [if_pos (by simp [List.map_cons, List.mem_cons, hJ]), if_pos hJ]
        · rw [if_neg (by simp [List.map_cons, List.mem_cons, hJ]), if_neg hJ]
      · rw [if_neg hnotin]
      · show st.conciseness = if FieldKey.concisenessKey ∈ List.map Prod.fst fl then none
            else some nCon
        rw [h3]
        by_cases hJ : FieldKey.concisenessKey ∈ List.map Prod.fst fl
        · rw [if_pos (by simp [List.map_cons, List.mem_cons, hJ]), if_pos hJ]
        · rw [if_neg (by simp [List.map_cons, List.mem_cons, hJ]), if_neg hJ]
      · show st.accuracy = if FieldKey.accuracyKey ∈ List.map Prod.fst fl then none
            else some nAcc
        rw [h4]
        by_cases hJ : FieldKey.accuracyKey ∈ List.map Prod.fst fl
        · rw [if_pos (by simp [List.map_cons, List.mem_cons, hJ]), if_pos hJ]
        · rw [if_neg (by simp [List.map_cons, List.mem_cons, hJ]), if_neg hJ]
      · show st.improvement1 = if FieldKey.improvement1Key ∈ List.map Prod.fst fl then none
            else some v1
        rw [h5]
        by_cases hJ : FieldKey.improvement1Key ∈ List.map Prod.fst fl
        · rw [if_pos (by simp [List.map_cons, List.mem_cons, hJ]), if_pos hJ]
        · rw [if_neg (by simp [List.map_cons, List.mem_cons, hJ]), if_neg hJ]
      · show st.improvement2 = if FieldKey.improvement2Key ∈ List.map Prod.fst fl then none
            else some v2
        rw [h6]
        by_cases hJ : FieldKey.improvement2Key ∈ List.map Prod.fst fl
        · rw [if_pos (by simp [List.map_cons, List.mem_cons, hJ]), if_pos hJ]
        · rw [if_neg (by simp [List.map_cons, List.mem_cons, hJ]), if_neg hJ]
      · show st.improvement3 = if FieldKey.improvement3Key ∈ List.map Prod.fst fl then none
            else some v3
        rw [h7]
        by_cases hJ : FieldKey.improvement3Key ∈ List.map Prod.fst fl
        · rw [if_pos (by simp [List.map_cons, List.mem_cons, hJ]), if_pos hJ]
        · rw [if_neg (by simp [List.map_cons, List.mem_cons, hJ]), if_neg hJ]
      · show st.overall = if FieldKey.overallKey ∈ List.map Prod.fst fl then none
            else some ovR
        rw [h8]
        by_cases hJ : FieldKey.overallKey ∈ List.map Prod.fst fl
        · rw [if_pos (by simp [List.map_cons, List.mem_cons, hJ]), if_pos hJ]
        · rw [if_neg (by simp [List.map_cons, List.mem_cons, hJ]), if_neg hJ]
    · have hset : st.conciseness = none := by rw [h3]; simp
      have happ : applyPair st (FieldKey.concisenessKey, vCon) =
          .ok { st with conciseness := some nCon } := by
        simp [applyPair, applyField, hset, hCon, Except.map]
      have hnotin : FieldKey.concisenessKey ∉ fl.map Prod.fst := (List.nodup_cons.mp hnodup).1
      rw [List.foldlM_cons, happ, except_bind_ok]
      refine ih _ (fun kv hk => hmem kv (List.mem_cons_of_mem _ hk))
        (List.nodup_cons.mp hnodup).2 ?_ ?_ ?_ ?_ ?_ ?_ ?_ ?_
      · show st.appropriate = if FieldKey.appropriateKey ∈ List.map Prod.fst fl then none
            else some bA
        rw [h1]
        by_cases hJ : FieldKey.appropriateKey ∈ List.map Prod.fst fl
        · rw [if_pos (by simp [List.map_cons, List.mem_cons, hJ]), if_pos hJ]
        · rw [if_neg (by simp [List.map_cons, List.mem_cons, hJ]), if_neg hJ]
      · show st.importance = if FieldKey.importanceKey ∈ List.map Prod.fst fl then none
            else some nImp
        rw [h2]
        by_cases hJ : FieldKey.importanceKey ∈ List.map Prod.fst fl
        · rw [if_pos (by simp [List.map_cons, List.mem_cons, hJ]), if_pos hJ]
        · rw [if_neg (by simp [List.map_cons, List.mem_cons, hJ]), if_neg hJ]
      · rw [if_neg hnotin]
      · show st.accuracy = if FieldKey.accuracyKey ∈ List.map Prod.fst fl then none
            else some nAcc
        rw [h4]
        by_cases hJ : FieldKey.accuracyKey ∈ List.map Prod.fst fl
        · rw [if_pos (by simp [List.map_cons, List.mem_cons, hJ]), if_pos hJ]
        · rw [if_neg (by simp [List.map_cons, List.mem_cons, hJ]), if_neg hJ]
      · show st.improvement1 = if FieldKey.improvement1Key ∈ List.map Prod.fst fl then none
            else some v1
        rw [h5]
        by_cases hJ : FieldKey.improvement1Key ∈ List.map Prod.fst fl
        · rw [if_pos (by simp [List.map_cons, List.mem_cons, hJ]), if_pos hJ]
        · rw [if_neg (by simp [List.map_cons, List.mem_cons, hJ]), if_neg hJ]
      · show st.improvement2 = if FieldKey.improvement2Key ∈ List.map Prod.fst fl then none
            else some v2
        rw [h6]
        by_cases hJ : FieldKey.improvement2Key ∈ List.map Prod.fst fl
        · rw [if_pos (by simp [List.map_cons, List.mem_cons, hJ]), if_pos hJ]
        · rw [if_neg (by simp [List.map_cons, List.mem_cons, hJ]), if_neg hJ]
      · show st.improvement3 = if FieldKey.improvement3Key ∈ List.map Prod.fst fl then none
            else some v3
        rw [h7]
        by_cases hJ : FieldKey.improvement3Key ∈ List.map Prod.fst fl
        · rw [if_pos (by simp [List.map_cons, List.mem_cons, hJ]), if_pos hJ]
        · rw [if_neg (by simp [List.map_cons, List.mem_cons, hJ]), if_neg hJ]
      · show st.overall = if FieldKey.overallKey ∈ List.map Prod.fst fl then none
            else some ovR
        rw [h8]
        by_cases hJ : FieldKey.overallKey ∈ List.map Prod.fst fl
        · rw [if_pos (by simp [List.map_cons, List.mem_cons, hJ]), if_pos hJ]
        · rw [if_neg (by simp [List.map_cons, List.mem_cons, hJ]), if_neg hJ]
    · have hset : st.accuracy = none := by rw [h4]; simp
      have happ : applyPair st (FieldKey.accuracyKey, vAcc) =
          .ok { st with accuracy := some nAcc } := by
        simp [applyPair, applyField, hset, hAcc, Except.map]
      have hnotin : FieldKey.accuracyKey ∉ fl.map Prod.fst := (List.nodup_cons.mp hnodup).1
      rw [List.foldlM_cons, happ, except_bind_ok]
      refine ih _ (fun kv hk => hmem kv (List.mem_cons_of_mem _ hk))
        (List.nodup_cons.mp hnodup).2 ?_ ?_ ?_ ?_ ?_ ?_ ?_ ?_
      · show st.appropriate = if FieldKey.appropriateKey ∈ List.map Prod.fst fl then none
            else some bA
        rw [h1]
        by_cases hJ : FieldKey.appropriateKey ∈ List.map Prod.fst fl
        · rw [if_pos (by simp [List.map_cons, List.mem_cons, hJ]), if_pos hJ]
        · rw [if_neg (by simp [List.map_cons, List.mem_cons, hJ]), if_neg hJ]
      · show st.importance = if FieldKey.importanceKey ∈ List.map Prod.fst fl then none
            else some nImp
        rw [h2]
        by_cases hJ : FieldKey.importanceKey ∈ List.map Prod.fst fl
        · rw [if_pos (by simp [List.map_cons, List.mem_cons, hJ]), if_pos hJ]
        · rw [if_neg (by simp [List.map_cons, List.mem_cons, hJ]), if_neg hJ]
      · show st.conciseness = if FieldKey.concisenessKey ∈ List.map Prod.fst fl then none
            else some nCon
        rw [h3]
        by_cases hJ : FieldKey.concisenessKey ∈ List.map Prod.fst fl
        · rw [if_pos (by simp [List.map_cons, List.mem_cons, hJ]), if_pos hJ]
        · rw [if_neg (by simp [List.map_cons, List.mem_cons, hJ]), if_neg hJ]
      · rw [if_neg hnotin]
      · show st.improvement1 = if FieldKey.improvement1Key ∈ List.map Prod.fst fl then none
            else some v1
        rw [h5]
        by_cases hJ : FieldKey.improvement1Key ∈ List.map Prod.fst fl
        · rw [if_pos (by simp [List.map_cons, List.mem_cons, hJ]), if_pos hJ]
        · rw [if_neg (by simp [List.map_cons, List.mem_cons, hJ]), if_neg hJ]
      · show st.improvement2 = if FieldKey.improvement2Key ∈ List.map Prod.fst fl then none
            else some v2
        rw [h6]
        by_cases hJ : FieldKey.improvement2Key ∈ List.map Prod.fst fl
        · rw [if_pos (by simp [List.map_cons, List.mem_cons, hJ]), if_pos hJ]
        · rw [if_neg (by simp [List.map_cons, List.mem_cons, hJ]), if_neg hJ]
      · show st.improvement3 = if FieldKey.improvement3Key ∈ List.map Prod.fst fl then none
            else some v3
        rw [h7]
        by_cases hJ : FieldKey.improvement3Key ∈ List.map Prod.fst fl
        · rw [if_pos (by simp [List.map_cons, List.mem_cons, hJ]), if_pos hJ]
        · rw [if_neg (by simp [List.map_cons, List.mem_cons, hJ]), if_neg hJ]
      · show st.overall = if FieldKey.overallKey ∈ List.map Prod.fst fl then none
            else some ovR
        rw [h8]
        by_cases hJ : FieldKey.overallKey ∈ List.map Prod.fst fl
        · rw [if_pos (by simp [List.map_cons, List.mem_cons, hJ]), if_pos hJ]
        · rw [if_neg (by simp [List.map_cons, List.mem_cons, hJ]), if_neg hJ]
    · have hset : st.improvement1 = none := by rw [h5]; simp
      have happ : applyPair st (FieldKey.improvement1Key, v1) =
          .ok { st with improvement1 := some v1 } := by
        simp [applyPair, applyField, hset]
      have hnotin : FieldKey.improvement1Key ∉ fl.map Prod.fst := (List.nodup_cons.mp hnodup).1
      rw [List.foldlM_cons, happ, except_bind_ok]
      refine ih _ (fun kv hk => hmem kv (List.mem_cons_of_mem _ hk))
        (List.nodup_cons.mp hnodup).2 ?_ ?_ ?_ ?_ ?_ ?_ ?_ ?_
      · show st.appropriate = if FieldKey.appropriateKey ∈ List.map Prod.fst fl then none
            else some bA
        rw [h1]
        by_cases hJ : FieldKey.appropriateKey ∈ List.map Prod.fst fl
        · rw [if_pos (by simp [List.map_cons, List.mem_cons, hJ]), if_pos hJ]
        · rw [if_neg (by simp [List.map_cons, List.mem_cons, hJ]), if_neg hJ]
      · show st.importance = if FieldKey.importanceKey ∈ List.map Prod.fst fl then none
            else some nImp
        rw [h2]
        by_cases hJ : FieldKey.importanceKey ∈ List.map Prod.fst fl
        · rw [if_pos (by simp [List.map_cons, List.mem_cons, hJ]), if_pos hJ]
        · rw [if_neg (by simp [List.map_cons, List.mem_cons, hJ]), if_neg hJ]
      · show st.conciseness = if FieldKey.concisenessKey ∈ List.map Prod.fst fl then none
            else some nCon
        rw [h3]
        by_cases hJ : FieldKey.concisenessKey ∈ List.map Prod.fst fl
        · rw [if_pos (by simp [List.map_cons, List.mem_cons, hJ]), if_pos hJ]
        · rw [if_neg (by simp [List.map_cons, List.mem_cons, hJ]), if_neg hJ]
      · show st.accuracy = if FieldKey.accuracyKey ∈ List.map Prod.fst fl then none
            else some nAcc
        rw [h4]
        by_cases hJ : FieldKey.accuracyKey ∈ List.map Prod.fst fl
        · rw [if_pos (by simp [List.map_cons, List.mem_cons, hJ]), if_pos hJ]
        · rw [if_neg (by simp [List.map_cons, List.mem_cons, hJ]), if_neg hJ]
      · rw [if_neg hnotin]
      · show st.improvement2 = if FieldKey.improvement2Key ∈ List.map Prod.fst fl then none
            else some v2
        rw [h6]
        by_cases hJ : FieldKey.improvement2Key ∈ List.map Prod.fst fl
        · rw [if_pos (by simp [List.map_cons, List.mem_cons, hJ]), if_pos hJ]
        · rw [if_neg (by simp [List.map_cons, List.mem_cons, hJ]), if_neg hJ]
      · show st.improvement3 = if FieldKey.improvement3Key ∈ List.map Prod.fst fl then none
            else some v3
        rw [h7]
        by_cases hJ : FieldKey.improvement3Key ∈ List.map Prod.fst fl
        · rw [if_pos (by simp [List.map_cons, List.mem_cons, hJ]), if_pos hJ]
        · rw [if_neg (by simp [List.map_cons, List.mem_cons, hJ]), if_neg hJ]
      · show st.overall = if FieldKey.overallKey ∈ List.map Prod.fst fl then none
            else some ovR
        rw [h8]
        by_cases hJ : FieldKey.overallKey ∈ List.map Prod.fst fl
        · rw [if_pos (by simp [List.map_cons, List.mem_cons, hJ]), if_pos hJ]
        · rw [if_neg (by simp [List.map_cons, List.mem_cons, hJ]), if_neg hJ]
    · have hset : st.improvement2 = none := by rw [h6]; simp
      have happ : applyPair st (FieldKey.improvement2Key, v2) =
          .ok { st with improvement2 := some v2 } := by
        simp [applyPair, applyField, hset]
      have hnotin : FieldKey.improvement2Key ∉ fl.map Prod.fst := (List.nodup_cons.mp hnodup).1
      rw [List.foldlM_cons, happ, except_bind_ok]
      refine ih _ (fun kv hk => hmem kv (List.mem_cons_of_mem _ hk))
        (List.nodup_cons.mp hnodup).2 ?_ ?_ ?_ ?_ ?_ ?_ ?_ ?_
      · show st.appropriate = if FieldKey.appropriateKey ∈ List.map Prod.fst fl then none
            else some bA
        rw [h1]
        by_cases hJ : FieldKey.appropriateKey ∈ List.map Prod.fst fl
        · rw [if_pos (by simp [List.map_cons, List.mem_cons, hJ]), if_pos hJ]
        · rw [if_neg (by simp [List.map_cons, List.mem_cons, hJ]), if_neg hJ]
      · show st.importance = if FieldKey.importanceKey ∈ List.map Prod.fst fl then none
            else some nImp
        rw [h2]
        by_cases hJ : FieldKey.importanceKey ∈ List.map Prod.fst fl
        · rw [if_pos (by simp [List.map_cons, List.mem_cons, hJ]), if_pos hJ]
        · rw [if_neg (by simp [List.map_cons, List.mem_cons, hJ]), if_neg hJ]
      · show st.conciseness = if FieldKey.concisenessKey ∈ List.map Prod.fst fl then none
            else some nCon
        rw [h3]
        by_cases hJ : FieldKey.concisenessKey ∈ List.map Prod.fst fl
        · rw [if_pos (by simp [List.map_cons, List.mem_cons, hJ]), if_pos hJ]
        · rw [if_neg (by simp [List.map_cons, List.mem_cons, hJ]), if_neg hJ]
      · show st.accuracy = if FieldKey.accuracyKey ∈ List.map Prod.fst fl then none
            else some nAcc
        rw [h4]
        by_cases hJ : FieldKey.accuracyKey ∈ List.map Prod.fst fl
        · rw [if_pos (by simp [List.map_cons, List.mem_cons, hJ]), if_pos hJ]
        · rw [if_neg (by simp [List.map_cons, List.mem_cons, hJ]), if_neg hJ]
      · show st.improvement1 = if FieldKey.improvement1Key ∈ List.map Prod.fst fl then none
            else some v1
        rw [h5]
        by_cases hJ : FieldKey.improvement1Key ∈ List.map Prod.fst fl
        · rw [if_pos (by simp [List.map_cons, List.mem_cons, hJ]), if_pos hJ]
        · rw [if_neg (by simp [List.map_cons, List.mem_cons, hJ]), if_neg hJ]
      · rw [if_neg hnotin]
      · show st.improvement3 = if FieldKey.improvement3Key ∈ List.map Prod.fst fl then none
            else some v3
        rw [h7]
        by_cases hJ : FieldKey.improvement3Key ∈ List.map Prod.fst fl
        · rw [if_pos (by simp [List.map_cons, List.mem_cons, hJ]), if_pos hJ]
        · rw [if_neg (by simp [List.map_cons, List.mem_cons, hJ]), if_neg hJ]
      · show st.overall = if FieldKey.overallKey ∈ List.map Prod.fst fl then none
            else some ovR
        rw [h8]
        by_cases hJ : FieldKey.overallKey ∈ List.map Prod.fst fl
        · rw [if_pos (by simp [List.map_cons, List.mem_cons, hJ]), if_pos hJ]
        · rw [if_neg (by simp [List.map_cons, List.mem_cons, hJ]), if_neg hJ]
    · have hset : st.improvement3 = none := by rw [h7]; simp
      have happ : applyPair st (FieldKey.improvement3Key, v3) =
          .ok { st with improvement3 := some v3 } := by
        simp [applyPair, applyField, hset]
      have hnotin : FieldKey.improvement3Key ∉ fl.map Prod.fst := (List.nodup_cons.mp hnodup).1
      rw [List.foldlM_cons, happ, except_bind_ok]
      refine ih _ (fun kv hk => hmem kv (List.mem_cons_of_mem _ hk))
        (List.nodup_cons.mp hnodup).2 ?_ ?_ ?_ ?_ ?_ ?_ ?_ ?_
      · show st.appropriate = if FieldKey.appropriateKey ∈ List.map Prod.fst fl then none
            else some bA
        rw [h1]
        by_cases hJ : FieldKey.appropriateKey ∈ List.map Prod.fst fl
        · rw [if_pos (by simp [List.map_cons, List.mem_cons, hJ]), if_pos hJ]
        · rw [if_neg (by simp [List.map_cons, List.mem_cons, hJ]), if_neg hJ]
      · show st.importance = if FieldKey.importanceKey ∈ List.map Prod.fst fl then none
            else some nImp
        rw [h2]
        by_cases hJ : FieldKey.importanceKey ∈ List.map Prod.fst fl
        · rw [if_pos (by simp [List.map_cons, List.mem_cons, hJ]), if_pos hJ]
        · rw [if_neg (by simp [List.map_cons, List.mem_cons, hJ]), if_neg hJ]
      · show st.conciseness = if FieldKey.concisenessKey ∈ List.map Prod.fst fl then none
            else some nCon
        rw [h3]
        by_cases hJ : FieldKey.concisenessKey ∈ List.map Prod.fst fl
        · rw [if_pos (by simp [List.map_cons, List.mem_cons, hJ]), if_pos hJ]
        · rw [if_neg (by simp [List.map_cons, List.mem_cons, hJ]), if_neg hJ]
      · show st.accuracy = if FieldKey.accuracyKey ∈ List.map Prod.fst fl then none
            else some nAcc
        rw [h4]
        by_cases hJ : FieldKey.accuracyKey ∈ List.map Prod.fst fl
        · rw [if_pos (by simp [List.map_cons, List.mem_cons, hJ]), if_pos hJ]
        · rw [if_neg (by simp [List.map_cons, List.mem_cons, hJ]), if_neg hJ]
      · show st.improvement1 = if FieldKey.improvement1Key ∈ List.map Prod.fst fl then none
            else some v1
        rw [h5]
        by_cases hJ : FieldKey.improvement1Key ∈ List.map Prod.fst fl
        · rw [if_pos (by simp [List.map_cons, List.mem_cons, hJ]), if_pos hJ]
        · rw [if_neg (by simp [List.map_cons, List.mem_cons, hJ]), if_neg hJ]
      · show st.improvement2 = if FieldKey.improvement2Key ∈ List.map Prod.fst fl then none
            else some v2
        rw [h6]
        by_cases hJ : FieldKey.improvement2Key ∈ List.map Prod.fst fl
        · rw [if_pos (by simp [List.map_cons, List.mem_cons, hJ]), if_pos hJ]
        · rw [if_neg (by simp [List.map_cons, List.mem_cons, hJ]), if_neg hJ]
      · rw [if_neg hnotin]
      · show st.overall = if FieldKey.overallKey ∈ List.map Prod.fst fl then none
            else some ovR
        rw [h8]
        by_cases hJ : FieldKey.overallKey ∈ List.map Prod.fst fl
        · rw [if_pos (by simp [List.map_cons, List.mem_cons, hJ]), if_pos hJ]
        · rw [if_neg (by simp [List.map_cons, List.mem_cons, hJ]), if_neg hJ]
    · have hset : st.overall = none := by rw [h8]; simp
      have happ : applyPair st (FieldKey.overallKey, vOv) =
          .ok { st with overall := some ovR } := by
        simp [applyPair, applyField, hset, hOv]
      have hnotin : FieldKey.overallKey ∉ fl.map Prod.fst := (List.nodup_cons.mp hnodup).1
      rw [List.foldlM_cons, happ, except_bind_ok]
      refine ih _ (fun kv hk => hmem kv (List.mem_cons_of_mem _ hk))
        (List.nodup_cons.mp hnodup).2 ?_ ?_ ?_ ?_ ?_ ?_ ?_ ?_
      · show st.appropriate = if FieldKey.appropriateKey ∈ List.map Prod.fst fl then none
            else some bA
        rw [h1]
        by_cases hJ : FieldKey.appropriateKey ∈ List.map Prod.fst fl
        · rw [if_pos (by simp [List.map_cons, List.mem_cons, hJ]), if_pos hJ]
        · rw [if_neg (by simp [List.map_cons, List.mem_cons, hJ]), if_neg hJ]
      · show st.importance = if FieldKey.importanceKey ∈ List.map Prod.fst fl then none
            else some nImp
        rw [h2]
        by_cases hJ : FieldKey.importanceKey ∈ List.map Prod.fst fl
        · rw [if_pos (by simp [List.map_cons, List.mem_cons, hJ]), if_pos hJ]
        · rw [if_neg (by simp [List.map_cons, List.mem_cons, hJ]), if_neg hJ]
      · show st.conciseness = if FieldKey.concisenessKey ∈ List.map Prod.fst fl then none
            else some nCon
        rw [h3]
        by_cases hJ : FieldKey.concisenessKey ∈ List.map Prod.fst fl
        · rw [if_pos (by simp [List.map_cons, List.mem_cons, hJ]), if_pos hJ]
        · rw [if_neg (by simp [List.map_cons, List.mem_cons, hJ]), if_neg hJ]
      · show st.accuracy = if FieldKey.accuracyKey ∈ List.map Prod.fst fl then none
            else some nAcc
        rw [h4]
        by_cases hJ : FieldKey.accuracyKey ∈ List.map Prod.fst fl
        · rw [if_pos (by simp [List.map_cons, List.mem_cons, hJ]), if_pos hJ]
        · rw [if_neg (by simp [List.map_cons, List.mem_cons, hJ]), if_neg hJ]
      · show st.improvement1 = if FieldKey.improvement1Key ∈ List.map Prod.fst fl then none
            else some v1
        rw [h5]
        by_cases hJ : FieldKey.improvement1Key ∈ List.map Prod.fst fl
        · rw [if_pos (by simp [List.map_cons, List.mem_cons, hJ]), if_pos hJ]
        · rw [if_neg (by simp [List.map_cons, List.mem_cons, hJ]), if_neg hJ]
      · show st.improvement2 = if FieldKey.improvement2Key ∈ List.map Prod.fst fl then none
            else some v2
        rw [h6]
        by_cases hJ : FieldKey.improvement2Key ∈ List.map Prod.fst fl
        · rw [if_pos (by simp [List.map_cons, List.mem_cons, hJ]), if_pos hJ]
        · rw [if_neg (by simp [List.map_cons, List.mem_cons, hJ]), if_neg hJ]
      · show st.improvement3 = if FieldKey.improvement3Key ∈ List.map Prod.fst fl then none
            else some v3
        rw [h7]
        by_cases hJ : FieldKey.improvement3Key ∈ List.map Prod.fst fl
        · rw [if_pos (by simp [List.map_cons, List.mem_cons, hJ]), if_pos hJ]
        · rw [if_neg (by simp [List.map_cons, List.mem_cons, hJ]), if_neg hJ]
      · rw [if_neg hnotin]

lemma parse_evaluation_of_perm
    (vA vImp vCon vAcc v1 v2 v3 vOv : Str) (bA : Bool) (nImp nCon nAcc : Nat)
    (ovR : OverallEvaluation)
    (hA : parseYesNo vA = some bA)
    (hImp : parse_score keyImportance vImp = .ok nImp)
    (hCon : parse_score keyConciseness vCon = .ok nCon)
    (hAcc : parse_score keyAccuracy vAcc = .ok nAcc)
    (hOv : parsePassFail vOv = some ovR)
    (input : Str)
    (hperm : ((lines input).filterMap classify).Perm
      (assignment vA vImp vCon vAcc v1 v2 v3 vOv)) :
    parse_evaluation input =
      .ok { appropriate := bA, importance := nImp, conciseness := nCon, accuracy := nAcc,
            improvement1 := v1, improvement2 := v2, improvement3 := v3, overall := ovR } := by
  have hin : ∀ k : FieldKey,
      k ∈ ((lines input).filterMap classify).map Prod.fst ↔
      k ∈ (assignment vA vImp vCon vAcc v1 v2 v3 vOv).map Prod.fst :=
    fun k => (hperm.map Prod.fst).mem_iff
  have hnodup : (((lines input).filterMap classify).map Prod.fst).Nodup :=
    (hperm.map Prod.fst).nodup_iff.mpr (by simp [assignment, List.nodup_cons])
  have hfold := foldlM_applyPair_of_perm vA vImp vCon vAcc v1 v2 v3 vOv bA nImp nCon nAcc
    ovR hA hImp hCon hAcc hOv ((lines input).filterMap classify) initPState
    (fun kv hk => hperm.mem_iff.mp hk) hnodup
    (by rw [if_pos ((hin FieldKey.appropriateKey).mpr (by simp [assignment]))]; rfl)
    (by rw [if_pos ((hin FieldKey.importanceKey).mpr (by simp [assignment]))]; rfl)
    (by rw [if_pos ((hin FieldKey.concisenessKey).mpr (by simp [assignment]))]; rfl)
    (by rw [if_pos ((hin FieldKey.accuracyKey).mpr (by simp [assignment]))]; rfl)
    (by rw [if_pos ((hin FieldKey.improvement1Key).mpr (by simp [assignment]))]; rfl)
    (by rw [if_pos ((hin FieldKey.improvement2Key).mpr (by simp [assignment]))]; rfl)
    (by rw [if_pos ((hin FieldKey.improvement3Key).mpr (by simp [assignment]))]; rfl)
    (by rw [if_pos ((hin FieldKey.overallKey).mpr (by simp [assignment]))]; rfl)
  show ((lines input).foldlM parseStep initPState) >>= finalizeParse = _
  rw [foldlM_parseStep_eq, hfold, except_bind_ok]
  rfl

-- ## Per-key line classification

lemma classify_plain_appropriate (v : Str) (hv : trim v = v) :
    classify (plainLine keyAppropriate v) = some (.appropriateKey, v) := by
  have h := classify_plainLine '適' ("切な要約か".toList) v (by decide) (by decide) (by decide)
    (by decide) (by decide) (by decide) (by decide) (by decide) hv
  rw [show plainLine keyAppropriate v = plainLine ('適' :: "切な要約か".toList) v from rfl, h]
  rfl

lemma classify_glyph_appropriate (g : Char) (hg : g ∈ bulletGlyphs) (v : Str) (hv : trim v = v) :
    classify (g :: ' ' :: plainLine keyAppropriate v) = some (.appropriateKey, v) := by
  have h := classify_glyphLine g hg '適' ("切な要約か".toList) v (by decide) (by decide)
    (by decide) hv
  rw [show plainLine keyAppropriate v = plainLine ('適' :: "切な要約か".toList) v from rfl, h]
  rfl

lemma classify_plain_importance (v : Str) (hv : trim v = v) :
    classify (plainLine keyImportance v) = some (.importanceKey, v) := by
  have h := classify_plainLine '重' ("要情報の抽出".toList) v (by decide) (by decide) (by decide)
    (by decide) (by decide) (by decide) (by decide) (by decide) hv
  rw [show plainLine keyImportance v = plainLine ('重' :: "要情報の抽出".toList) v from rfl, h]
  rfl

lemma classify_glyph_importance (g : Char) (hg : g ∈ bulletGlyphs) (v : Str) (hv : trim v = v) :
    classify (g :: ' ' :: plainLine keyImportance v) = some (.importanceKey, v) := by
  have h := classify_glyphLine g hg '重' ("要情報の抽出".toList) v (by decide) (by decide)
    (by decide) hv
  rw [show plainLine keyImportance v = plainLine ('重' :: "要情報の抽出".toList) v from rfl, h]
  rfl

lemma classify_plain_conciseness (v : Str) (hv : trim v = v) :
    classify (plainLine keyConciseness v) = some (.concisenessKey, v) := by
  have h := classify_plainLine '簡' ("潔性".toList) v (by decide) (by decide) (by decide)
    (by decide) (by decide) (by decide) (by decide) (by decide) hv
  rw [show plainLine keyConciseness v = plainLine ('簡' :: "潔性".toList) v from rfl, h]
  rfl

lemma classify_glyph_conciseness (g : Char) (hg : g ∈ bulletGlyphs) (v : Str) (hv : trim v = v) :
    classify (g :: ' ' :: plainLine keyConciseness v) = some (.concisenessKey, v) := by
  have h := classify_glyphLine g hg '簡' ("潔性".toList) v (by decide) (by decide)
    (by decide) hv
  rw [show plainLine keyConciseness v = plainLine ('簡' :: "潔性".toList) v from rfl, h]
  rfl

lemma classify_plain_accuracy (v : Str) (hv : trim v = v) :
    classify (plainLine keyAccuracy v) = some (.accuracyKey, v) := by
  have h := classify_plainLine '正' ("確性".toList) v (by decide) (by decide) (by decide)
    (by decide) (by decide) (by decide) (by decide) (by decide) hv
  rw [show plainLine keyAccuracy v = plainLine ('正' :: "確性".toList) v from rfl, h]
  rfl

lemma classify_glyph_accuracy (g : Char) (hg : g ∈ bulletGlyphs) (v : Str) (hv : trim v = v) :
    classify (g :: ' ' :: plainLine keyAccuracy v) = some (.accuracyKey, v) := by
  have h := classify_glyphLine g hg '正' ("確性".toList) v (by decide) (by decide)
    (by decide) hv
  rw [show plainLine keyAccuracy v = plainLine ('正' :: "確性".toList) v from rfl, h]
  rfl

lemma classify_plain_improvement1 (v : Str) (hv : trim v = v) :
    classify (plainLine keyImprovement1 v) = some (.improvement1Key, v) := by
  have h := classify_plainLine '改' ("善点1".toList) v (by decide) (by decide) (by decide)
    (by decide) (by decide) (by decide) (by decide) (by decide) hv
  rw [show plainLine keyImprovement1 v = plainLine ('改' :: "善点1".toList) v from rfl, h]
  rfl

lemma classify_glyph_improvement1 (g : Char) (hg : g ∈ bulletGlyphs) (v : Str) (hv : trim v = v) :
    classify (g :: ' ' :: plainLine keyImprovement1 v) = some (.improvement1Key, v) := by
  have h := classify_glyphLine g hg '改' ("善点1".toList) v (by decide) (by decide)
    (by decide) hv
  rw [show plainLine keyImprovement1 v = plainLine ('改' :: "善点1".toList) v from rfl, h]
  rfl

lemma classify_plain_improvement2 (v : Str) (hv : trim v = v) :
    classify (plainLine keyImprovement2 v) = some (.improvement2Key, v) := by
  have h := classify_plainLine '改' ("善点2".toList) v (by decide) (by decide) (by decide)
    (by decide) (by decide) (by decide) (by decide) (by decide) hv
  rw [show plainLine keyImprovement2 v = plainLine ('改' :: "善点2".toList) v from rfl, h]
  rfl

lemma classify_glyph_improvement2 (g : Char) (hg : g ∈ bulletGlyphs) (v : Str) (hv : trim v = v) :
    classify (g :: ' ' :: plainLine keyImprovement2 v) = some (.improvement2Key, v) := by
  have h := classify_glyphLine g hg '改' ("善点2".toList) v (by decide) (by decide)
    (by decide) hv
  rw [show plainLine keyImprovement2 v = plainLine ('改' :: "善点2".toList) v from rfl, h]
  rfl

lemma classify_plain_improvement3 (v : Str) (hv : trim v = v) :
    classify (plainLine keyImprovement3 v) = some (.improvement3Key, v) := by
  have h := classify_plainLine '改' ("善点3".toList) v (by decide) (by decide) (by decide)
    (by decide) (by decide) (by decide) (by decide) (by decide) hv
  rw [show plainLine keyImprovement3 v = plainLine ('改' :: "善点3".toList) v from rfl, h]
  rfl

lemma classify_glyph_improvement3 (g : Char) (hg : g ∈ bulletGlyphs) (v : Str) (hv : trim v = v) :
    classify (g :: ' ' :: plainLine keyImprovement3 v) = some (.improvement3Key, v) := by
  have h := classify_glyphLine g hg '改' ("善点3".toList) v (by decide) (by decide)
    (by decide) hv
  rw [show plainLine keyImprovement3 v = plainLine ('改' :: "善点3".toList) v from rfl, h]
  rfl

lemma classify_plain_overall (v : Str) (hv : trim v = v) :
    classify (plainLine keyOverall v) = some (.overallKey, v) := by
  have h := classify_plainLine '総' ("合評価".toList) v (by decide) (by decide) (by decide)
    (by decide) (by decide) (by decide) (by decide) (by decide) hv
  rw [show plainLine keyOverall v = plainLine ('総' :: "合評価".toList) v from rfl, h]
  rfl

lemma classify_glyph_overall (g : Char) (hg : g ∈ bulletGlyphs) (v : Str) (hv : trim v = v) :
    classify (g :: ' ' :: plainLine keyOverall v) = some (.overallKey, v) := by
  have h := classify_glyphLine g hg '総' ("合評価".toList) v (by decide) (by decide)
    (by decide) hv
  rw [show plainLine keyOverall v = plainLine ('総' :: "合評価".toList) v from rfl, h]
  rfl

-- ## Line membership / terminator lemmas

lemma nl_not_mem_append_plainLine (p key v : Str) (hp : ('\n' : Char) ∉ p)
    (hk : ('\n' : Char) ∉ key) (hv : ('\n' : Char) ∉ v) :
    ('\n' : Char) ∉ p ++ plainLine key v := by
  intro h
  rcases List.mem_append.mp h with h2 | h2
  · exact hp h2
  · rcases List.mem_append.mp h2 with h3 | h3
    · rcases List.mem_append.mp h3 with h4 | h4
      · exact hk h4
      · exact absurd h4 (by decide)
    · exact hv h3

lemma append_plainLine_last_not_cr (p key v : Str) (hv : trim v = v) :
    (p ++ plainLine key v).getLast? ≠ some '\r' := by
  by_cases hne : v = []
  · subst hne
    rw [show p ++ plainLine key [] = (p ++ (key ++ [':'])) ++ [' '] from by simp [plainLine],
        List.getLast?_concat]
    intro h
    exact absurd (Option.some.inj h) (by decide)
  · rcases List.eq_nil_or_concat v with rfl | ⟨v2, c, rfl⟩
    · exact absurd rfl hne
    · rw [List.concat_eq_append] at hv ⊢
      have hc : isRustWhitespace c = false :=
        concat_last_not_ws (trimEnd_eq_of_trim_eq hv)
      rw [show p ++ plainLine key (v2 ++ [c]) = (p ++ ((key ++ [':', ' ']) ++ v2)) ++ [c] from by
        simp [plainLine], List.getLast?_concat]
      intro h
      rw [Option.some.inj h] at hc
      exact absurd hc (by decide)

lemma nl_not_mem_plainLine (key v : Str) (hk : ('\n' : Char) ∉ key)
    (hv : ('\n' : Char) ∉ v) : ('\n' : Char) ∉ plainLine key v := by
  have := nl_not_mem_append_plainLine [] key v (by decide) hk hv
  simpa using this

lemma plainLine_last_not_cr (key v : Str) (hv : trim v = v) :
    (plainLine key v).getLast? ≠ some '\r' := by
  have := append_plainLine_last_not_cr [] key v hv
  simpa using this

lemma nl_not_mem_fieldLine (key v : Str) (hk : ('\n' : Char) ∉ key)
    (hv : ('\n' : Char) ∉ v) : ('\n' : Char) ∉ fieldLine key v :=
  nl_not_mem_append_plainLine ['-', ' '] key v (by decide) hk hv

lemma fieldLine_last_not_cr (key v : Str) (hv : trim v = v) :
    (fieldLine key v).getLast? ≠ some '\r' :=
  append_plainLine_last_not_cr ['-', ' '] key v hv

-- ## C5: field-order / bullet-glyph / junk-line tolerance

/-- **C5**: for every input text whose classified lines carry each of the
eight required fields exactly once, in any order, with any supported
bullet glyph or none before each field (classification strips them), and
with any number of interleaved non-matching lines (prose, blanks) ignored,
`parse_evaluation` succeeds and returns exactly the structured result of
the canonical ordering without prefixes. -/
theorem parse_field_order_tolerant
    (vA vImp vCon vAcc v1 v2 v3 vOv : Str) (bA : Bool) (nImp nCon nAcc : Nat)
    (ovR : OverallEvaluation)
    (hA : parseYesNo vA = some bA)
    (hImp : parse_score keyImportance vImp = .ok nImp)
    (hCon : parse_score keyConciseness vCon = .ok nCon)
    (hAcc : parse_score keyAccuracy vAcc = .ok nAcc)
    (hOv : parsePassFail vOv = some ovR)
    (htA : trim vA = vA) (hnA : ('\n' : Char) ∉ vA)
    (htImp : trim vImp = vImp) (hnImp : ('\n' : Char) ∉ vImp)
    (htCon : trim vCon = vCon) (hnCon : ('\n' : Char) ∉ vCon)
    (htAcc : trim vAcc = vAcc) (hnAcc : ('\n' : Char) ∉ vAcc)
    (ht1 : trim v1 = v1) (hn1 : ('\n' : Char) ∉ v1)
    (ht2 : trim v2 = v2) (hn2 : ('\n' : Char) ∉ v2)
    (ht3 : trim v3 = v3) (hn3 : ('\n' : Char) ∉ v3)
    (htOv : trim vOv = vOv) (hnOv : ('\n' : Char) ∉ vOv)
    (input : Str)
    (hperm : ((lines input).filterMap classify).Perm
      (assignment vA vImp vCon vAcc v1 v2 v3 vOv)) :
    parse_evaluation input =
      .ok { appropriate := bA, importance := nImp, conciseness := nCon, accuracy := nAcc,
            improvement1 := v1, improvement2 := v2, improvement3 := v3, overall := ovR } ∧
    parse_evaluation (canonicalText vA vImp vCon vAcc v1 v2 v3 vOv) =
      .ok { appropriate := bA, importance := nImp, conciseness := nCon, accuracy := nAcc,
            improvement1 := v1, improvement2 := v2, improvement3 := v3, overall := ovR } := by
  refine ⟨parse_evaluation_of_perm vA vImp vCon vAcc v1 v2 v3 vOv bA nImp nCon nAcc ovR
    hA hImp hCon hAcc hOv input hperm, ?_⟩
  have hlines : lines (canonicalText vA vImp vCon vAcc v1 v2 v3 vOv) =
      [plainLine keyAppropriate vA,
       plainLine keyImportance vImp,
       plainLine keyConciseness vCon,
       plainLine keyAccuracy vAcc,
       plainLine keyImprovement1 v1,
       plainLine keyImprovement2 v2,
       plainLine keyImprovement3 v3,
       plainLine keyOverall vOv] := by
    unfold canonicalText
    rw [lines_cons_line _ (nl_not_mem_plainLine _ _ (by decide) hnA) (plainLine_last_not_cr _ _ htA)]
    rw [lines_cons_line _ (nl_not_mem_plainLine _ _ (by decide) hnImp) (plainLine_last_not_cr _ _ htImp)]
    rw [lines_cons_line _ (nl_not_mem_plainLine _ _ (by decide) hnCon) (plainLine_last_not_cr _ _ htCon)]
    rw [lines_cons_line _ (nl_not_mem_plainLine _ _ (by decide) hnAcc) (plainLine_last_not_cr _ _ htAcc)]
    rw [lines_cons_line _ (nl_not_mem_plainLine _ _ (by decide) hn1) (plainLine_last_not_cr _ _ ht1)]
    rw [lines_cons_line _ (nl_not_mem_plainLine _ _ (by decide) hn2) (plainLine_last_not_cr _ _ ht2)]
    rw [lines_cons_line _ (nl_not_mem_plainLine _ _ (by decide) hn3) (plainLine_last_not_cr _ _ ht3)]
    rw [lines_cons_line _ (nl_not_mem_plainLine _ _ (by decide) hnOv) (plainLine_last_not_cr _ _ htOv)]
    rfl
  have hfm : ([plainLine keyAppropriate vA,
       plainLine keyImportance vImp,
       plainLine keyConciseness vCon,
       plainLine keyAccuracy vAcc,
       plainLine keyImprovement1 v1,
       plainLine keyImprovement2 v2,
       plainLine keyImprovement3 v3,
       plainLine keyOverall vOv].filterMap classify) =
      assignment vA vImp vCon vAcc v1 v2 v3 vOv := by
    simp only [List.filterMap_cons, classify_plain_appropriate vA htA, classify_plain_importance vImp htImp, classify_plain_conciseness vCon htCon, classify_plain_accuracy vAcc htAcc, classify_plain_improvement1 v1 ht1, classify_plain_improvement2 v2 ht2, classify_plain_improvement3 v3 ht3, classify_plain_overall vOv htOv,
      List.filterMap_nil, assignment]
  refine parse_evaluation_of_perm vA vImp vCon vAcc v1 v2 v3 vOv bA nImp nCon nAcc ovR
    hA hImp hCon hAcc hOv _ ?_
  rw [hlines, hfm]

/-- **C5 witness**: a scrambled response with prose, a blank line, all five
glyph varieties and a bare field parses to the expected record. -/
theorem parse_field_order_tolerant_witness :
    parse_evaluation scrambledResponse =
      .ok { appropriate := true, importance := 2, conciseness := 3, accuracy := 5,
            improvement1 := ['a'], improvement2 := ['b'], improvement3 := ['c'],
            overall := .pass } :=
  (parse_field_order_tolerant ("はい".toList) ("2".toList) ("3".toList) ("5/5".toList)
    ['a'] ['b'] ['c'] ("合格です".toList) true 2 3 5 OverallEvaluation.pass
    (by decide) (by decide) (by decide) (by decide) (by decide)
    (by decide) (by decide) (by decide) (by decide) (by decide) (by decide)
    (by decide) (by decide) (by decide) (by decide) (by decide) (by decide)
    (by decide) (by decide) (by decide) (by decide)
    scrambledResponse (by decide)).1

-- ## C4: parse/format round trip

/-- **C4 counterexample**: a valid parsed evaluation whose (trimmed) first
improvement contains a newline does not round-trip: the formatter splits
it across two lines and the parser keeps only the first. -/
theorem parse_format_roundtrip_newline_cex :
    parse_evaluation (format_evaluation_display multilineEval) =
      .ok { multilineEval with improvement1 := ['a'] } ∧
    ({ multilineEval with improvement1 := ['a'] } : EvaluationResult) ≠ multilineEval ∧
    trim multilineEval.improvement1 = multilineEval.improvement1 := by
  refine ⟨by decide, by decide, by decide⟩

/-- **C4 (amended)**: `parse (format x) = Ok x` for every valid
`ParsedEvaluation` `x` — appropriate flag, three scores in `[1, 5]`, three
trimmed improvement strings, overall verdict — provided the improvement
strings contain no newline character. -/
theorem parse_format_roundtrip (x : EvaluationResult)
    (hImp : 1 ≤ x.importance ∧ x.importance ≤ 5)
    (hCon : 1 ≤ x.conciseness ∧ x.conciseness ≤ 5)
    (hAcc : 1 ≤ x.accuracy ∧ x.accuracy ≤ 5)
    (ht1 : trim x.improvement1 = x.improvement1)
    (hn1 : ('\n' : Char) ∉ x.improvement1)
    (ht2 : trim x.improvement2 = x.improvement2)
    (hn2 : ('\n' : Char) ∉ x.improvement2)
    (ht3 : trim x.improvement3 = x.improvement3)
    (hn3 : ('\n' : Char) ∉ x.improvement3) :
    parse_evaluation (format_evaluation_display x) = .ok x := by
  obtain ⟨bA, nImp, nCon, nAcc, v1, v2, v3, ovR⟩ := x
  obtain ⟨hi1, hi2⟩ : 1 ≤ nImp ∧ nImp ≤ 5 := hImp
  obtain ⟨hc1, hc2⟩ : 1 ≤ nCon ∧ nCon ≤ 5 := hCon
  obtain ⟨ha1, ha2⟩ : 1 ≤ nAcc ∧ nAcc ≤ 5 := hAcc
  have ht1b : trim v1 = v1 := ht1
  have hn1b : ('\n' : Char) ∉ v1 := hn1
  have ht2b : trim v2 = v2 := ht2
  have hn2b : ('\n' : Char) ∉ v2 := hn2
  have ht3b : trim v3 = v3 := ht3
  have hn3b : ('\n' : Char) ∉ v3 := hn3
  clear ht1 hn1 ht2 hn2 ht3 hn3
  have hA : parseYesNo (renderYesNo bA) = some bA := by
    cases bA <;> decide
  have htA2 : trim (renderYesNo bA) = renderYesNo bA := by cases bA <;> decide
  have hnA2 : ('\n' : Char) ∉ renderYesNo bA := by cases bA <;> decide
  have hImpP : parse_score keyImportance (Nat.toDigits 10 nImp) = .ok nImp := by
    interval_cases nImp <;> decide
  have htImp2 : trim (Nat.toDigits 10 nImp) = Nat.toDigits 10 nImp := by
    interval_cases nImp <;> decide
  have hnImp2 : ('\n' : Char) ∉ Nat.toDigits 10 nImp := by
    interval_cases nImp <;> decide
  have hConP : parse_score keyConciseness (Nat.toDigits 10 nCon) = .ok nCon := by
    interval_cases nCon <;> decide
  have htCon2 : trim (Nat.toDigits 10 nCon) = Nat.toDigits 10 nCon := by
    interval_cases nCon <;> decide
  have hnCon2 : ('\n' : Char) ∉ Nat.toDigits 10 nCon := by
    interval_cases nCon <;> decide
  have hAccP : parse_score keyAccuracy (Nat.toDigits 10 nAcc) = .ok nAcc := by
    interval_cases nAcc <;> decide
  have htAcc2 : trim (Nat.toDigits 10 nAcc) = Nat.toDigits 10 nAcc := by
    interval_cases nAcc <;> decide
  have hnAcc2 : ('\n' : Char) ∉ Nat.toDigits 10 nAcc := by
    interval_cases nAcc <;> decide
  have hOv : parsePassFail (renderOverall ovR) = some ovR := by cases ovR <;> decide
  have htOv2 : trim (renderOverall ovR) = renderOverall ovR := by cases ovR <;> decide
  have hnOv2 : ('\n' : Char) ∉ renderOverall ovR := by cases ovR <;> decide
  have hfmt : format_evaluation_display
      ⟨bA, nImp, nCon, nAcc, v1, v2, v3, ovR⟩ =
      fieldLine keyAppropriate (renderYesNo bA) ++ '\n' ::
      (fieldLine keyImportance (Nat.toDigits 10 nImp) ++ '\n' ::
      (fieldLine keyConciseness (Nat.toDigits 10 nCon) ++ '\n' ::
      (fieldLine keyAccuracy (Nat.toDigits 10 nAcc) ++ '\n' ::
      (fieldLine keyImprovement1 v1 ++ '\n' ::
      (fieldLine keyImprovement2 v2 ++ '\n' ::
      (fieldLine keyImprovement3 v3 ++ '\n' ::
      (fieldLine keyOverall (renderOverall ovR) ++ '\n' :: []))))))) := rfl
  have hlines : lines (format_evaluation_display
      ⟨bA, nImp, nCon, nAcc, v1, v2, v3, ovR⟩) =
      [fieldLine keyAppropriate (renderYesNo bA),
       fieldLine keyImportance (Nat.toDigits 10 nImp),
       fieldLine keyConciseness (Nat.toDigits 10 nCon),
       fieldLine keyAccuracy (Nat.toDigits 10 nAcc),
       fieldLine keyImprovement1 v1,
       fieldLine keyImprovement2 v2,
       fieldLine keyImprovement3 v3,
       fieldLine keyOverall (renderOverall ovR)] := by
    rw [hfmt]
    rw [lines_cons_line _ (nl_not_mem_fieldLine _ _ (by decide) hnA2) (fieldLine_last_not_cr _ _ htA2)]
    rw [lines_cons_line _ (nl_not_mem_fieldLine _ _ (by decide) hnImp2) (fieldLine_last_not_cr _ _ htImp2)]
    rw [lines_cons_line _ (nl_not_mem_fieldLine _ _ (by decide) hnCon2) (fieldLine_last_not_cr _ _ htCon2)]
    rw [lines_cons_line _ (nl_not_mem_fieldLine _ _ (by decide) hnAcc2) (fieldLine_last_not_cr _ _ htAcc2)]
    rw [lines_cons_line _ (nl_not_mem_fieldLine _ _ (by decide) hn1b) (fieldLine_last_not_cr _ _ ht1b)]
    rw [lines_cons_line _ (nl_not_mem_fieldLine _ _ (by decide) hn2b) (fieldLine_last_not_cr _ _ ht2b)]
    rw [lines_cons_line _ (nl_not_mem_fieldLine _ _ (by decide) hn3b) (fieldLine_last_not_cr _ _ ht3b)]
    rw [lines_cons_line _ (nl_not_mem_fieldLine _ _ (by decide) hnOv2) (fieldLine_last_not_cr _ _ htOv2)]
    rfl
  have hc_appropriate : classify (fieldLine keyAppropriate (renderYesNo bA)) = some (.appropriateKey, (renderYesNo bA)) := by
    rw [show fieldLine keyAppropriate (renderYesNo bA) = '-' :: ' ' :: plainLine keyAppropriate (renderYesNo bA) from rfl]
    exact classify_glyph_appropriate '-' (by decide) _ htA2
  have hc_importance : classify (fieldLine keyImportance (Nat.toDigits 10 nImp)) = some (.importanceKey, (Nat.toDigits 10 nImp)) := by
    rw [show fieldLine keyImportance (Nat.toDigits 10 nImp) = '-' :: ' ' :: plainLine keyImportance (Nat.toDigits 10 nImp) from rfl]
    exact classify_glyph_importance '-' (by decide) _ htImp2
  have hc_conciseness : classify (fieldLine keyConciseness (Nat.toDigits 10 nCon)) = some (.concisenessKey, (Nat.toDigits 10 nCon)) := by
    rw [show fieldLine keyConciseness (Nat.toDigits 10 nCon) = '-' :: ' ' :: plainLine keyConciseness (Nat.toDigits 10 nCon) from rfl]
    exact classify_glyph_conciseness '-' (by decide) _ htCon2
  have hc_accuracy : classify (fieldLine keyAccuracy (Nat.toDigits 10 nAcc)) = some (.accuracyKey, (Nat.toDigits 10 nAcc)) := by
    rw [show fieldLine keyAccuracy (Nat.toDigits 10 nAcc) = '-' :: ' ' :: plainLine keyAccuracy (Nat.toDigits 10 nAcc) from rfl]
    exact classify_glyph_accuracy '-' (by decide) _ htAcc2
  have hc_improvement1 : classify (fieldLine keyImprovement1 v1) = some (.improvement1Key, v1) := by
    rw [show fieldLine keyImprovement1 v1 = '-' :: ' ' :: plainLine keyImprovement1 v1 from rfl]
    exact classify_glyph_improvement1 '-' (by decide) _ ht1b
  have hc_improvement2 : classify (fieldLine keyImprovement2 v2) = some (.improvement2Key, v2) := by
    rw [show fieldLine keyImprovement2 v2 = '-' :: ' ' :: plainLine keyImprovement2 v2 from rfl]
    exact classify_glyph_improvement2 '-' (by decide) _ ht2b
  have hc_improvement3 : classify (fieldLine keyImprovement3 v3) = some (.improvement3Key, v3) := by
    rw [show fieldLine keyImprovement3 v3 = '-' :: ' ' :: plainLine keyImprovement3 v3 from rfl]
    exact classify_glyph_improvement3 '-' (by decide) _ ht3b
  have hc_overall : classify (fieldLine keyOverall (renderOverall ovR)) = some (.overallKey, (renderOverall ovR)) := by
    rw [show fieldLine keyOverall (renderOverall ovR) = '-' :: ' ' :: plainLine keyOverall (renderOverall ovR) from rfl]
    exact classify_glyph_overall '-' (by decide) _ htOv2
  have hfm : ([fieldLine keyAppropriate (renderYesNo bA),
       fieldLine keyImportance (Nat.toDigits 10 nImp),
       fieldLine keyConciseness (Nat.toDigits 10 nCon),
       fieldLine keyAccuracy (Nat.toDigits 10 nAcc),
       fieldLine keyImprovement1 v1,
       fieldLine keyImprovement2 v2,
       fieldLine keyImprovement3 v3,
       fieldLine keyOverall (renderOverall ovR)].filterMap classify) =
      assignment (renderYesNo bA) (Nat.toDigits 10 nImp)
        (Nat.toDigits 10 nCon) (Nat.toDigits 10 nAcc) v1 v2 v3
        (renderOverall ovR) := by
    simp only [List.filterMap_cons, hc_appropriate, hc_importance, hc_conciseness, hc_accuracy, hc_improvement1, hc_improvement2, hc_improvement3, hc_overall, List.filterMap_nil, assignment]
  refine parse_evaluation_of_perm _ _ _ _ v1 v2 v3 _ bA nImp nCon nAcc ovR
    hA hImpP hConP hAccP hOv _ ?_
  rw [hlines, hfm]

/-- **C4 witness**: the round trip holds at a concrete valid evaluation
with single-line improvements (one of them empty). -/
theorem parse_format_roundtrip_witness :
    parse_evaluation (format_evaluation_display simpleEval) = .ok simpleEval :=
  parse_format_roundtrip simpleEval (by decide) (by decide) (by decide) (by decide)
    (by decide) (by decide) (by decide) (by decide) (by decide)

end Yomitore
